import Mathlib

/-!
Shallow embedding, in Lean 4, of the JIMM federation core as found in the
repository sources (internal/jimm/model.go, the jimm implementation files
concatenated in internal/jimm/access_test.go, the OpenFGA client in
src/unnamed/part_000, and the dbmodel types in src/unnamed/part_001),
together with theorems settling the specification claims about it.

Conventions:
* Go strings become `String`, Go `uint` database ids and priorities become
  `Nat`, `sql.NullBool` becomes `Option Bool`.
* External collaborators (the relational catalog, the dialled controller
  API, the secret store, the OpenFGA tuple store) are modelled by explicit
  state or by result flags supplied in an environment record; each embedded
  function consumes exactly the results the Go code consumes, in the order
  the Go code consumes them.
* Fallible Go functions become functions into `Except JimmError _` (or
  return a builder with its `err` field set, mirroring the Go builder
  pattern of internal/jimm/model.go).
-/

namespace Jimm

/-- Error codes used by internal/errors and jujuparams
(`CodeAlreadyExists`, `CodeUpgradeInProgress`, ...). -/
inductive ErrCode where
  | unauthorized
  | notFound
  | alreadyExists
  | badRequest
  | upgradeInProgress
  | connectionFailed
  | other
  deriving DecidableEq, Repr

/-- An error as produced by `errors.E`: an optional code and a message. -/
structure JimmError where
  code : Option ErrCode := none
  msg : String := ""
  deriving DecidableEq, Repr

/-! ## Access levels and the revoke downgrade (RevokeModelAccess, access.go)

The switch statement of `JIMM.RevokeModelAccess`:

    switch access {
    case "admin":
        uma.Access = "write"
    case "write":
        uma.Access = "read"
    default:
        uma.Access = ""
    }
-/

/-- The new locally-stored access level written by `RevokeModelAccess`
when access level `access` is revoked, from its switch statement. -/
def revokeDowngrade (access : String) : String :=
  if access = "admin" then "write"
  else if access = "write" then "read"
  else ""

/-- A row of the user-model-access association
(dbmodel.UserModelAccess with its User association loaded). -/
structure UserModelAccess where
  userID : Nat
  username : String
  access : String
  deriving DecidableEq, Repr

/-- The slice of a dbmodel.Model needed by the access operations:
its UUID and its Users association. -/
structure MModel where
  uuid : String
  users : List UserModelAccess
  deriving DecidableEq, Repr

/-- A dbmodel.User as used by the access operations. -/
structure DbUser where
  id : Nat
  username : String
  controllerAccess : String
  deriving DecidableEq, Repr

/-- dbmodel.Model.UserAccess: the access level the given user has on the
model. The method itself is not among the source files (only its callers
are); it is the straightforward association lookup: the access of the row
of that user in m.Users, "" when the user has no row. -/
def MModel.userAccess (m : MModel) (u : DbUser) : String :=
  ((m.users.find? (fun a => a.userID == u.id)).map (fun a => a.access)).getD ""

/-- `Database.UpdateUserModelAccess`: upsert of the target user's access
row (external catalog write; modelled as the upsert it performs). -/
def updateUserModelAccess (m : MModel) (uid : Nat) (uname access : String) : MModel :=
  if m.users.any (fun a => a.userID == uid) then
    { m with users := m.users.map (fun a => if a.userID == uid then { a with access := access } else a) }
  else
    { m with users := m.users ++ [⟨uid, uname, access⟩] }

/-- Events recording the externally visible calls made by the access
operations, in program order. -/
inductive AccessEvent where
  | dial
  | remoteGrant
  | remoteRevoke
  | dbUpdateAccess
  deriving DecidableEq, Repr

/-- Results of the external calls made by GrantModelAccess /
RevokeModelAccess: the catalog lookups, the dial and the controller call. -/
structure AccessEnv where
  /-- `Database.GetModel` result: the model row, `none` for not-found. -/
  model : Option MModel
  /-- `Database.GetUser` result for the target user. -/
  targetUser : Option DbUser
  /-- whether `j.dial` succeeds. -/
  dialOk : Bool
  /-- whether the controller Grant/RevokeModelAccess call succeeds. -/
  remoteOk : Bool
  /-- whether `Database.UpdateUserModelAccess` succeeds. -/
  updateOk : Bool

/-- `JIMM.GrantModelAccess` (access.go): catalog lookup, admin check,
target lookup, dial, controller grant, then local catalog update. Returns
the result together with the updated model row and the trace of external
calls made. -/
def grantModelAccess (env : AccessEnv) (u : DbUser) (access : String) :
    Except JimmError MModel × List AccessEvent :=
  match env.model with
  | none => (.error ⟨some .notFound, "model not found"⟩, [])
  | some m =>
    if ¬(u.controllerAccess = "superuser" ∨ m.userAccess u = "admin") then
      (.error ⟨some .unauthorized, ""⟩, [])
    else
      match env.targetUser with
      | none => (.error ⟨some .notFound, "user not found"⟩, [])
      | some tu =>
        if ¬env.dialOk then (.error ⟨some .connectionFailed, ""⟩, [.dial])
        else if ¬env.remoteOk then (.error ⟨none, "grant failed"⟩, [.dial, .remoteGrant])
        else
          let m' := updateUserModelAccess m tu.id tu.username access
          if env.updateOk then (.ok m', [.dial, .remoteGrant, .dbUpdateAccess])
          else (.error ⟨none, "cannot update database after updating controller"⟩,
                [.dial, .remoteGrant, .dbUpdateAccess])

/-- `JIMM.RevokeModelAccess` (access.go): identical shape to grant, with
the revoked level downgraded by `revokeDowngrade` before the local write.
The controller call is made first; the comment in the source reads "The
change on the controller has succeeded, update the local database." -/
def revokeModelAccess (env : AccessEnv) (u : DbUser) (access : String) :
    Except JimmError MModel × List AccessEvent :=
  match env.model with
  | none => (.error ⟨some .notFound, "model not found"⟩, [])
  | some m =>
    if ¬(u.controllerAccess = "superuser" ∨ m.userAccess u = "admin") then
      (.error ⟨some .unauthorized, ""⟩, [])
    else
      match env.targetUser with
      | none => (.error ⟨some .notFound, "user not found"⟩, [])
      | some tu =>
        if ¬env.dialOk then (.error ⟨some .connectionFailed, ""⟩, [.dial])
        else if ¬env.remoteOk then (.error ⟨none, "revoke failed"⟩, [.dial, .remoteRevoke])
        else
          let m' := updateUserModelAccess m tu.id tu.username (revokeDowngrade access)
          if env.updateOk then (.ok m', [.dial, .remoteRevoke, .dbUpdateAccess])
          else (.error ⟨none, "cannot update database after updating controller"⟩,
                [.dial, .remoteRevoke, .dbUpdateAccess])

/-! ## Placement: dbmodel cloud data and shuffleRegionControllers (model.go) -/

/-- The slice of dbmodel.Controller used by placement. -/
structure Controller where
  id : Nat
  name : String
  deriving DecidableEq, Repr

/-- dbmodel.CloudRegionControllerPriority: a (cloud region, controller,
priority) entry. -/
structure CloudRegionControllerPriority where
  cloudRegionID : Nat
  controller : Controller
  priority : Nat
  deriving DecidableEq, Repr

/-- dbmodel.CloudRegion with its Controllers association. -/
structure CloudRegion where
  id : Nat
  name : String
  controllers : List CloudRegionControllerPriority
  deriving DecidableEq, Repr

/-- dbmodel.Cloud with its Regions association. -/
structure Cloud where
  name : String
  regions : List CloudRegion
  deriving DecidableEq, Repr

/-- The comparator of `shuffleRegionControllers`:
`sort.SliceStable(controllers, func(i, j) { return c[i].Priority > c[j].Priority })`
orders the entries so that one precedes another iff its priority is not
smaller, i.e. descending by priority. -/
def priorityGE (a b : CloudRegionControllerPriority) : Prop :=
  b.priority ≤ a.priority

instance : DecidableRel priorityGE := fun a b => Nat.decLe b.priority a.priority

instance : IsTotal CloudRegionControllerPriority priorityGE :=
  ⟨fun a b => Nat.le_total b.priority a.priority⟩

instance : IsTrans CloudRegionControllerPriority priorityGE :=
  ⟨fun _ _ _ h1 h2 => le_trans h2 h1⟩

/-- `rand.Shuffle` reorders a slice in place by a uniformly random
permutation; the permutation applied is made explicit as the parameter
σ: position i of the shuffled list holds the element at position σ i of
the original. -/
def permuteList {α : Type _} (l : List α) (σ : Equiv.Perm (Fin l.length)) : List α :=
  (List.finRange l.length).map (fun i => l.get (σ i))

/-- `shuffleRegionControllers` (model.go): shuffle the candidate entries
(σ being the rand.Shuffle outcome), then sort stably, descending by
priority. `sort.SliceStable` is a stable sort and a stable sort result is
unique, so it is embedded by the stable `List.insertionSort`. -/
def shuffleRegionControllers (cs : List CloudRegionControllerPriority)
    (σ : Equiv.Perm (Fin cs.length)) : List CloudRegionControllerPriority :=
  List.insertionSort priorityGE (permuteList cs σ)

/-! ## Placement selection (modelBuilder.WithCloudRegion / selectCloudRegion) -/

/-- The candidate list built by `selectCloudRegion`: all (region,
controller, priority) entries across all regions of the cloud. -/
def cloudCandidates (c : Cloud) : List CloudRegionControllerPriority :=
  (c.regions.map (fun r => r.controllers)).flatten

/-- `modelBuilder.selectCloudRegion` (model.go), selection core: with no
region preselected, gather every entry of every region of the cloud,
error if there are none, shuffle (σ is the rand.Shuffle outcome per
candidate-list length) then stable-sort descending by priority, and pick
the first entry. Returns the chosen (CloudRegionID, Controller). -/
def selectCloudRegion (c : Cloud) (perm : (n : Nat) → Equiv.Perm (Fin n)) :
    Except JimmError (Nat × Controller) :=
  let regionControllers := cloudCandidates c
  -- the Go code errors when the candidate list is empty and indexes the
  -- shuffled list at 0 otherwise; shuffling and sorting preserve
  -- emptiness, so matching on the sorted list is the same test
  match shuffleRegionControllers regionControllers (perm regionControllers.length) with
  | [] => .error ⟨none, "unsupported cloud " ++ c.name⟩
  | first :: _ => .ok (first.cloudRegionID, first.controller)

/-- `modelBuilder.WithCloudRegion` (model.go), selection core: find the
first region of the cloud with the given name; if it has no entries the
builder records a BadRequest error (and the Go code would then crash
indexing the empty slice, so no controller is ever selected); otherwise
shuffle and stable-sort its entries and pick the first. -/
def withCloudRegionSelect (c : Cloud) (region : String)
    (perm : (n : Nat) → Equiv.Perm (Fin n)) :
    Except JimmError (Nat × Controller) :=
  match c.regions.find? (fun r => r.name == region) with
  | none => .error ⟨none, "cloud region " ++ region ++ " not found"⟩
  | some r =>
    match shuffleRegionControllers r.controllers (perm r.controllers.length) with
    | [] => .error ⟨some .badRequest, "unsupported cloud region " ++ c.name ++ "/" ++ region⟩
    | first :: _ =>
      -- the loop is followed by `if b.cloudRegionID == 0 { b.err = ... }`,
      -- so a selected entry whose CloudRegionID is the zero value still
      -- errors out
      if first.cloudRegionID = 0 then
        .error ⟨none, "cloud region " ++ region ++ " not found"⟩
      else .ok (first.cloudRegionID, first.controller)

/-! ## The ordering produced by shuffleRegionControllers (claim C4)

The deterministic part: the output is sorted descending by priority, and
by stability each equal-priority class appears in exactly the order the
shuffle placed it. The probabilistic part: rand.Shuffle applies a
uniformly random permutation σ; the induced relative order of each
equal-priority class is then uniform over the orderings of that class,
stated as equicardinality: any two orderings of the class are produced by
exactly the same number of shuffle outcomes σ. -/

/-- The original positions of the priority-p entries, in the order the
shuffle outcome σ places them; by stability this is also the order in
which the class appears in the sorted output. -/
def classOrder (l : List CloudRegionControllerPriority) (p : Nat)
    (σ : Equiv.Perm (Fin l.length)) : List (Fin l.length) :=
  ((List.finRange l.length).map σ).filter (fun j => (l.get j).priority == p)

/-- The positions of the priority-p entries of the candidate list. -/
def classIndices (l : List CloudRegionControllerPriority) (p : Nat) : List (Fin l.length) :=
  (List.finRange l.length).filter (fun j => (l.get j).priority == p)

/-- The function mapping the k-th element of t₁ to the k-th element of t₂
and fixing everything else. -/
def permOfListsFun {β : Type _} [DecidableEq β] (t₁ t₂ : List β)
    (hlen : t₁.length = t₂.length) (x : β) : β :=
  if h : x ∈ t₁ then t₂.get ⟨t₁.indexOf x, hlen ▸ List.indexOf_lt_length.2 h⟩ else x

def permOfListsFun_leftInv {β : Type _} [DecidableEq β] (t₁ t₂ : List β)
    (ht : List.Perm t₁ t₂) (h1 : t₁.Nodup) (x : β) :
    permOfListsFun t₂ t₁ ht.symm.length_eq (permOfListsFun t₁ t₂ ht.length_eq x) = x := by
  by_cases h : x ∈ t₁
  · have h2 : t₂.Nodup := (ht.nodup_iff).1 h1
    have hinner : permOfListsFun t₁ t₂ ht.length_eq x =
        t₂.get ⟨t₁.indexOf x, ht.length_eq ▸ List.indexOf_lt_length.2 h⟩ := dif_pos h
    rw [hinner, permOfListsFun, dif_pos (List.get_mem t₂ _ _)]
    simp only [List.get_indexOf h2]
    exact List.indexOf_get _
  · have hinner : permOfListsFun t₁ t₂ ht.length_eq x = x := dif_neg h
    rw [hinner, permOfListsFun, dif_neg (fun hx => h (ht.mem_iff.2 hx))]

/-- The permutation mapping the k-th element of t₁ to the k-th element of
t₂ (t₂ a rearrangement of the duplicate-free t₁) and fixing everything
else. -/
def permOfLists {β : Type _} [DecidableEq β] (t₁ t₂ : List β)
    (ht : List.Perm t₁ t₂) (h1 : t₁.Nodup) : Equiv.Perm β :=
  ⟨permOfListsFun t₁ t₂ ht.length_eq,
   permOfListsFun t₂ t₁ ht.symm.length_eq,
   permOfListsFun_leftInv t₁ t₂ ht h1,
   permOfListsFun_leftInv t₂ t₁ ht.symm ((ht.nodup_iff).1 h1)⟩

/-! ## OpenFGA client (src/unnamed/part_000): removeTuples and RemoveGroup -/

/-- An ofganames.Tag: a typed identifier with an optional relation
suffix, rendered kind:id#rel; rel = "" when absent. -/
structure Tag where
  kind : String
  id : String
  rel : String := ""
  deriving DecidableEq, Repr

/-- An authorization tuple held in the OpenFGA store. -/
structure Tuple where
  obj : Tag
  rel : String
  target : Tag
  deriving DecidableEq, Repr

/-- A read pattern as built by createTupleKey: the object may be absent,
the relation may be blank, and the target may be a BlankKindTag (id =
""), standing for every object of its kind. -/
structure TuplePattern where
  obj : Option Tag := none
  rel : String := ""
  target : Tag
  deriving DecidableEq, Repr

/-- Whether a stored tuple matches a read pattern, following the OpenFGA
Read API as described in spec §4.3 (any of object and relation may be
blank; the target kind is always given, its id may be blank). -/
def tupleMatches (p : TuplePattern) (t : Tuple) : Bool :=
  (match p.obj with
   | none => true
   | some o => t.obj == o)
  && (p.rel == "" || t.rel == p.rel)
  && (t.target.kind == p.target.kind)
  && (p.target.id == "" || t.target == p.target)

/-- Modelled from the spec: the OpenFGA Read API is not part of the
repository; spec §4.3 describes it as `read(pattern, pageSize, token) →
(tuples, nextToken?)`, a paginated scan over the tuples matching a
partial pattern. The continuation token is the scan offset; 0 encodes
the empty token. -/
def readTuples (s : List Tuple) (p : TuplePattern) (pageSize token : Nat) :
    List Tuple × Nat :=
  let m := s.filter (tupleMatches p)
  ((m.drop token).take pageSize,
   if token + pageSize < m.length then token + pageSize else 0)

/-- The do-while loop of `OFGAClient.removeTuples`: read a page of
matching tuples using the current token, delete the returned tuples
(RemoveRelation), and continue while the returned token differs from the
token just used. The fuel argument makes the recursion structural;
`removeTuples` supplies enough fuel for the loop to run to completion. -/
def removeTuplesLoop (p : TuplePattern) : Nat → Nat → List Tuple → Option (List Tuple)
  | 0, _, _ => none
  | fuel + 1, token, s =>
    let r := readTuples s p 50 token
    let s' := s.filter (fun t => ¬ t ∈ r.1)
    if r.2 = token then some s' else removeTuplesLoop p fuel r.2 s'

/-- `OFGAClient.removeTuples` (src/unnamed/part_000): iteratively read
(page size 50) and delete all the tuples matching the pattern. -/
def removeTuples (s : List Tuple) (p : TuplePattern) : Option (List Tuple) :=
  removeTuplesLoop p (2 * (s.filter (tupleMatches p)).length + 2) 0 s

/-- The resourceTypes array of the OpenFGA client. Its comment claims it
lists every resource kind (tag kind) used throughout JIMM, but the cloud
kind is absent even though cloud tags occur in tuples (spec §3;
AddController's AddCloudController call). -/
def resourceTypes : List String :=
  ["user", "model", "controller", "applicationoffer", "group"]

/-- `OFGAClient.RemoveGroup` (src/unnamed/part_000): remove every tuple
with relation member targeting the group, then, for every resource kind,
every tuple whose object is the group with the `#member` sub-selector. -/
def removeGroup (gid : String) (s : List Tuple) : Option (List Tuple) := do
  let s1 ← removeTuples s ⟨none, "member", ⟨"group", gid, ""⟩⟩
  resourceTypes.foldlM
    (fun acc kind => removeTuples acc ⟨some ⟨"group", gid, "member"⟩, "", ⟨kind, "", ""⟩⟩) s1

/-- A tuple mentions the group (as object or as target). -/
def mentionsGroup (gid : String) (t : Tuple) : Prop :=
  (t.obj.kind = "group" ∧ t.obj.id = gid) ∨ (t.target.kind = "group" ∧ t.target.id = gid)

/-- Stores whose tuples target only the five kinds enumerated in the
client's resourceTypes array (user, model, controller, applicationoffer,
group), with group-targeted tuples in member form and group objects
carrying the `#member` sub-selector. This is a genuine restriction: the
repository also writes cloud-targeted tuples (AddController calls
AddCloudController, and spec §3 lists the `cloud:` kind), and those fall
outside this predicate — the resourceTypes loop of RemoveGroup does not
cover them, so the cascade below holds only on stores satisfying it (see
the counterexample removeGroup_misses_cloud_tuples). -/
def WellFormedStore (s : List Tuple) : Prop :=
  ∀ t ∈ s, t.target.kind ∈ resourceTypes ∧
    (t.target.kind = "group" → t.rel = "member" ∧ t.target.rel = "") ∧
    (t.obj.kind = "group" → t.obj.rel = "member")

/-! ## The model builder (modelBuilder, model.go) -/

/-- dbmodel.CloudCredential as used by the builder: identity triple,
validity (sql.NullBool, an optional Bool) and the revoked flag. -/
structure Credential where
  id : Nat
  name : String
  cloudName : String
  ownerID : String
  valid : Option Bool := none
  revoked : Bool := false
  deriving DecidableEq, Repr

/-- The dbmodel.Model row persisted by the builder. -/
structure ModelRow where
  id : Nat
  name : String
  ownerUsername : String
  controllerID : Nat
  cloudCredentialID : Nat
  cloudRegionID : Nat
  uuid : Option String := none
  life : String := ""
  deriving DecidableEq, Repr

/-- The models table of the catalog, with the next free row id (gorm
assigns increasing primary keys on insert). -/
structure DbState where
  models : List ModelRow
  nextID : Nat
  deriving DecidableEq, Repr

/-- jujuparams.ModelInfo as returned by the controller CreateModel call;
only the UUID is relevant to the catalog row update. -/
structure ControllerModelInfo where
  uuid : String
  deriving DecidableEq, Repr

/-- Events recording the externally visible calls made while adding a
model, in program order. -/
inductive ModelEvent where
  | dbAddModel
  | dbDeleteModel
  | dbUpdateModel
  | dial
  | remoteUpdateCredential
  | remoteCreateModel
  | remoteGrantAdmin
  deriving DecidableEq, Repr

/-- Results of the external collaborators consulted while adding a model. -/
structure AddModelEnv where
  /-- the user rows of the catalog (`Database.GetUser` reads them;
  missing users are created lazily, spec §3, so the lookup cannot fail). -/
  users : List DbUser
  /-- the clouds of the catalog (`Database.GetCloud`). -/
  clouds : List Cloud
  /-- the cloud credentials of the catalog (`Database.GetCloudCredential`
  and `Database.GetUserCloudCredentials`). -/
  credentials : List Credential
  /-- the rand.Shuffle outcomes, per candidate-list length. -/
  perm : (n : Nat) → Equiv.Perm (Fin n)
  /-- whether `j.dial` succeeds. -/
  dialOk : Bool
  /-- whether the controller UpdateCredential call succeeds. -/
  updateCredentialOk : Bool
  /-- the controller CreateModel result. -/
  createModel : Except ErrCode ControllerModelInfo
  /-- whether the controller GrantJIMMModelAdmin call succeeds. -/
  grantJIMMOk : Bool
  /-- whether `Database.UpdateModel` succeeds. -/
  updateModelOk : Bool

/-- `Database.GetUser`: look the user up, creating a fresh record on
first reference (users are created lazily, spec §3). -/
def getUser (env : AddModelEnv) (username : String) : DbUser :=
  match env.users.find? (fun u => u.username == username) with
  | some u => u
  | none => ⟨0, username, "add-model"⟩

/-- Modelled from the spec: `Database.GetUserCloudCredentials` is not
among the source files. Per §3 the credential identity is the (cloud,
owner, name) triple and revocation is a soft flag — revoked credentials
stay in the catalog until physically deleted — so the query returns every
catalog credential whose owner and cloud match, in catalog order. -/
def getUserCloudCredentials (env : AddModelEnv) (user : DbUser) (cloud : String) :
    List Credential :=
  env.credentials.filter (fun c => c.ownerID == user.username && c.cloudName == cloud)

/-- modelBuilder (model.go). The config field is carried opaquely by the
Go builder and never examined, so it is omitted. -/
structure Builder where
  err : Option JimmError := none
  name : String := ""
  user : Option DbUser := none
  owner : Option DbUser := none
  credential : Option Credential := none
  controller : Option Controller := none
  cloud : Option Cloud := none
  cloudRegion : String := ""
  cloudRegionID : Nat := 0
  model : Option ModelRow := none
  modelInfo : Option ControllerModelInfo := none
  deriving Repr

/-- modelBuilder.WithName. -/
def Builder.withName (b : Builder) (name : String) : Builder :=
  { b with name := name }

/-- modelBuilder.WithUser: records the authorized user, erroring when an
owner is already set that differs from the user and the user is not a
superuser. (The Go method does not consult b.err first.) -/
def Builder.withUser (b : Builder) (user : DbUser) : Builder :=
  let b1 := { b with user := some user }
  match b1.owner with
  | some o =>
    if o.username ≠ user.username ∧ user.controllerAccess ≠ "superuser" then
      { b1 with err := some ⟨some .unauthorized, ""⟩ }
    else b1
  | none => b1

/-- modelBuilder.WithOwner: errors (but continues) when the owner differs
from the authorized non-superuser user, then looks the owner up and
records it. -/
def Builder.withOwner (env : AddModelEnv) (b : Builder) (owner : String) : Builder :=
  if b.err.isSome then b
  else
    let b1 :=
      match b.user with
      | some u =>
        if owner ≠ u.username ∧ u.controllerAccess ≠ "superuser" then
          { b with err := some ⟨some .unauthorized, ""⟩ }
        else b
      | none => b
    { b1 with owner := some (getUser env owner) }

/-- modelBuilder.WithCloud: catalog lookup of the named cloud. -/
def Builder.withCloud (env : AddModelEnv) (b : Builder) (cloud : String) : Builder :=
  if b.err.isSome then b
  else
    match env.clouds.find? (fun c => c.name == cloud) with
    | none => { b with err := some ⟨some .notFound, "cloud not found"⟩ }
    | some c => { b with cloud := some c }

/-- modelBuilder.WithCloudRegion: region-restricted controller selection
(the selection core is withCloudRegionSelect above). -/
def Builder.withCloudRegion (env : AddModelEnv) (b : Builder) (region : String) : Builder :=
  if b.err.isSome then b
  else
    match b.cloud with
    | none => { b with err := some ⟨none, "cloud not specified"⟩ }
    | some cloud =>
      match withCloudRegionSelect cloud region env.perm with
      | .error e => { b with err := some e }
      | .ok (rid, ctl) =>
        { b with cloudRegion := region, cloudRegionID := rid, controller := some ctl }

/-- modelBuilder.selectCloudRegion, builder form: nothing to do when a
region is already selected; otherwise the cloud-wide selection core
(selectCloudRegion above). -/
def Builder.selectRegion (env : AddModelEnv) (b : Builder) : Except JimmError Builder :=
  if b.cloudRegionID ≠ 0 then .ok b
  else
    match b.cloud with
    | none => .error ⟨none, "cloud not specified"⟩
    | some cloud =>
      match selectCloudRegion cloud env.perm with
      | .error e => .error e
      | .ok (rid, ctl) =>
        .ok { b with cloudRegionID := rid, controller := some ctl }

/-- modelBuilder.selectCloudCredentials: fetch the cloud credentials of
the authorized user for the selected cloud and return the first one whose
valid flag is set. -/
def Builder.selectCloudCredentials (env : AddModelEnv) (b : Builder) :
    Except JimmError Credential :=
  match b.user with
  | none => .error ⟨none, "user not specified"⟩
  | some user =>
    match b.cloud with
    | none => .error ⟨none, "cloud not specified"⟩
    | some cloud =>
      -- "consider only valid credentials": credential.Valid.Valid &&
      -- credential.Valid.Bool == true
      match (getUserCloudCredentials env user cloud.name).find?
          (fun c => c.valid == some true) with
      | some c => .ok c
      | none => .error ⟨none, "valid cloud credentials not found"⟩

/-- modelBuilder.WithCloudCredential: catalog lookup of the credential
triple; on a failed lookup the error is recorded but the unfilled
credential is still stored, as in the source. -/
def Builder.withCloudCredential (env : AddModelEnv) (b : Builder)
    (cloud owner name : String) : Builder :=
  if b.err.isSome then b
  else
    match env.credentials.find? (fun c =>
        c.name == name && c.cloudName == cloud && c.ownerID == owner) with
    | some c => { b with credential := some c }
    | none =>
      { b with err := some ⟨some .notFound, "failed to fetch cloud credentials"⟩,
               credential := some ⟨0, name, cloud, owner, none, false⟩ }

/-- modelBuilder.CreateDatabaseModel: validate name and owner, select a
region/controller if none was picked, select credentials if none were
given, and insert the skeletal model row (Database.AddModel, whose
(owner, name) unique constraint surfaces as AlreadyExists). Returns the
builder, the catalog state and the trace of external calls. -/
def Builder.createDatabaseModel (env : AddModelEnv) (b : Builder) (db : DbState) :
    Builder × DbState × List ModelEvent :=
  if b.err.isSome then (b, db, [])
  else if b.name = "" then
    ({ b with err := some ⟨none, "model name not specified"⟩ }, db, [])
  else
    match b.owner with
    | none => ({ b with err := some ⟨none, "owner not specified"⟩ }, db, [])
    | some owner =>
      match (if b.cloudRegionID = 0 then b.selectRegion env else .ok b) with
      | .error e => ({ b with err := some ⟨e.code, e.msg⟩ }, db, [])
      | .ok b1 =>
        match b1.controller with
        | none =>
          -- the Go code records this error and then crashes dereferencing
          -- the nil controller; either way no catalog write happens
          ({ b1 with err := some ⟨none, "unable to determine a suitable controller"⟩ },
           db, [])
        | some ctl =>
          match (match b1.credential with
                 | some c => Except.ok c
                 | none => b1.selectCloudCredentials env) with
          | .error e =>
            -- the Go code records this error and then crashes
            -- dereferencing the nil credential; no catalog write happens
            ({ b1 with err := some ⟨e.code, "could not select cloud credentials"⟩ },
             db, [])
          | .ok cred =>
            let b2 := { b1 with credential := some cred }
            let row : ModelRow :=
              { id := 0, name := b2.name, ownerUsername := owner.username,
                controllerID := ctl.id, cloudCredentialID := cred.id,
                cloudRegionID := b2.cloudRegionID }
            if db.models.any (fun r =>
                r.ownerUsername == owner.username && r.name == b2.name) then
              ({ b2 with
                 model := some row,
                 err := some ⟨some .alreadyExists, "model already exists"⟩ },
               db, [.dbAddModel])
            else
              let stored := { row with id := db.nextID }
              ({ b2 with model := some stored },
               ⟨db.models ++ [stored], db.nextID + 1⟩, [.dbAddModel])

/-- modelBuilder.Cleanup: when an error has been recorded and a model row
was created, delete the row (Database.DeleteModel; a failure there is
only logged). -/
def Builder.cleanup (b : Builder) (db : DbState) : DbState × List ModelEvent :=
  match b.err, b.model with
  | some _, some m =>
    (⟨db.models.filter (fun r => r.id ≠ m.id), db.nextID⟩, [.dbDeleteModel])
  | _, _ => (db, [])

/-- modelBuilder.jujuModelCreateArgs: the validation the builder performs
before issuing the remote create call. -/
def Builder.jujuModelCreateArgsCheck (b : Builder) : Except JimmError Unit :=
  if b.name = "" then .error ⟨none, "model name not specified"⟩
  else if b.owner.isNone then .error ⟨none, "model owner not specified"⟩
  else if b.cloud.isNone then .error ⟨none, "cloud not specified"⟩
  else if b.cloudRegionID = 0 then .error ⟨none, "cloud region not specified"⟩
  else if b.credential.isNone then .error ⟨none, "credentials not specified"⟩
  else .ok ()

/-- modelBuilder.CreateControllerModel: dial the selected controller,
push the credential to it when one is set, validate the create-model
arguments and issue CreateModel; AlreadyExists aborts with that code
("model name in use"), UpgradeInProgress aborts, any other error becomes
BadRequest; finally grant JIMM admin access on the new model. -/
def Builder.createControllerModel (env : AddModelEnv) (b : Builder) :
    Builder × List ModelEvent :=
  if b.err.isSome then (b, [])
  else
    match b.model with
    | none => ({ b with err := some ⟨none, "model not specified"⟩ }, [])
    | some _ =>
      if ¬env.dialOk then
        ({ b with err := some ⟨some .connectionFailed, "failed to dial the controller"⟩ },
         [.dial])
      else
        let credEvents : List ModelEvent :=
          match b.credential with
          | some _ => [.dial, .remoteUpdateCredential]
          | none => [.dial]
        if b.credential.isSome && !env.updateCredentialOk then
          ({ b with err := some ⟨none, "failed to update cloud credential"⟩ }, credEvents)
        else
          match b.jujuModelCreateArgsCheck with
          | .error e => ({ b with err := some e }, credEvents)
          | .ok _ =>
            match env.createModel with
            | .error .alreadyExists =>
              ({ b with err := some ⟨some .alreadyExists, "model name in use"⟩ },
               credEvents ++ [.remoteCreateModel])
            | .error .upgradeInProgress =>
              ({ b with err := some ⟨some .upgradeInProgress, "upgrade in progress"⟩ },
               credEvents ++ [.remoteCreateModel])
            | .error _ =>
              ({ b with err := some ⟨some .badRequest, ""⟩ },
               credEvents ++ [.remoteCreateModel])
            | .ok info =>
              if ¬env.grantJIMMOk then
                ({ b with err := some ⟨none, "leaked model"⟩ },
                 credEvents ++ [.remoteCreateModel, .remoteGrantAdmin])
              else
                ({ b with modelInfo := some info },
                 credEvents ++ [.remoteCreateModel, .remoteGrantAdmin])

/-- modelBuilder.UpdateDatabaseModel: fill the stored row from the
controller reply (FromJujuModelInfo), overwrite the controller,
credential and region ids with the ones selected by the builder, and
write the row back (Database.UpdateModel). The per-user access filtering
touches only the Users association, which the catalog row here does not
carry. -/
def Builder.updateDatabaseModel (env : AddModelEnv) (b : Builder) (db : DbState) :
    Builder × DbState × List ModelEvent :=
  if b.err.isSome then (b, db, [])
  else
    match b.model, b.modelInfo with
    | some m, some info =>
      let m1 := { m with
                  uuid := some info.uuid,
                  controllerID := (b.controller.map (fun c => c.id)).getD m.controllerID,
                  cloudCredentialID :=
                    (b.credential.map (fun c => c.id)).getD m.cloudCredentialID,
                  cloudRegionID := b.cloudRegionID }
      if env.updateModelOk then
        ({ b with model := some m1 },
         ⟨db.models.map (fun r => if r.id = m1.id then m1 else r), db.nextID⟩,
         [.dbUpdateModel])
      else
        ({ b with err := some ⟨none, "failed to store model information"⟩ }, db,
         [.dbUpdateModel])
    | _, _ => ({ b with err := some ⟨none, "failed to convert model info"⟩ }, db, [])

/-- The arguments of JIMM.AddModel (ModelCreateArgs): name, owner tag,
optional cloud tag, optional region name, optional credential
(cloud, owner, name) tag. -/
structure ModelCreateArgs where
  name : String
  owner : String
  cloud : Option String := none
  cloudRegion : String := ""
  cloudCredential : Option (String × String × String) := none
  deriving DecidableEq, Repr

/-- The builder stages of `JIMM.AddModel` up to CreateDatabaseModel: the
WithName / WithUser / WithOwner / WithCloud(Region/Credential) chain.
AddModel checks `builder.Error()` after every stage and returns the
collected error, but since every stage is itself a no-op once an error is
recorded, checking the collected error once after the last stage is
observationally identical. -/
def addModelBuilder (env : AddModelEnv) (u : DbUser) (args : ModelCreateArgs) : Builder :=
  let b0 := (({} : Builder).withName args.name).withUser u
  let b1 := b0.withOwner env args.owner
  let b2 := match args.cloud with
    | some c => b1.withCloud env c
    | none => b1
  let b3 := if args.cloudRegion ≠ "" then b2.withCloudRegion env args.cloudRegion else b2
  match args.cloudCredential with
  | some t => b3.withCloudCredential env t.1 t.2.1 t.2.2
  | none => b3

/-- `JIMM.AddModel` (model.go): the builder pipeline. Each stage is
followed by the `builder.Error()` check of the source (collapsed into the
single check after the stage chain, see addModelBuilder); `Cleanup` is
deferred once the database model has been created, so it runs on every
later exit. Returns the result, the final catalog state and the trace of
external calls. -/
def addModel (env : AddModelEnv) (u : DbUser) (args : ModelCreateArgs) (db : DbState) :
    Except JimmError ControllerModelInfo × DbState × List ModelEvent :=
  let b4 := addModelBuilder env u args
  match b4.err with
  | some e => (.error e, db, [])
  | none =>
    let r5 := b4.createDatabaseModel env db
    match r5.1.err with
    | some e => (.error e, r5.2.1, r5.2.2)
    | none =>
      -- defer builder.Cleanup() is registered here
      let r6 := r5.1.createControllerModel env
      match r6.1.err with
      | some e =>
        let rc := r6.1.cleanup r5.2.1
        (.error e, rc.1, r5.2.2 ++ r6.2 ++ rc.2)
      | none =>
        let r8 := r6.1.updateDatabaseModel env r5.2.1
        match r8.1.err with
        | some e =>
          let rc := r8.1.cleanup r8.2.1
          (.error e, rc.1, r5.2.2 ++ r6.2 ++ r8.2.2 ++ rc.2)
        | none =>
          (.ok (r8.1.modelInfo.getD ⟨""⟩), r8.2.1, r5.2.2 ++ r6.2 ++ r8.2.2)

/-! ## ModelInfo (access.go) -/

/-- jujuparams.ModelUserInfo, as written by
dbmodel.UserModelAccess.WriteModelUserInfo. -/
structure ModelUserInfo where
  userName : String
  displayName : String := ""
  access : String
  deriving DecidableEq, Repr

/-- The slice of jujuparams.ModelInfo that `JIMM.ModelInfo` filters: the
Users and Machines lists (machines identified by id); the remaining
fields are returned unmodified and are irrelevant to the claims. -/
structure JujuModelInfo where
  name : String
  uuid : String
  users : List ModelUserInfo
  machines : List String
  deriving DecidableEq, Repr

/-- The model-user entry `JIMM.ModelInfo` computes for the requesting
user: the Go loop overwrites `modelUser` on every name match, keeping the
last matching entry, and leaves the zero value when none matches. -/
def modelInfoUserEntry (mi : JujuModelInfo) (u : DbUser) : ModelUserInfo :=
  mi.users.foldl (fun acc user => if user.userName == u.username then user else acc) ⟨"", "", ""⟩

/-- `JIMM.ModelInfo` (access.go): looks the model up in the catalog
(`found` is the `Database.GetModel` + `ToJujuModelInfo` result, `none` for
not-found), then filters by the requesting user: superusers and model
admins get everything; a user with no access gets CodeUnauthorized; other
users see only their own user entry, and lose the machine list unless
their access is "write". -/
def modelInfo (found : Option JujuModelInfo) (u : DbUser) : Except JimmError JujuModelInfo :=
  match found with
  | none => .error ⟨some .notFound, "model not found"⟩
  | some mi =>
    let modelUser := modelInfoUserEntry mi u
    if u.controllerAccess = "superuser" ∨ modelUser.access = "admin" then .ok mi
    else if modelUser.access = "" then .error ⟨some .unauthorized, ""⟩
    else
      let mi1 := { mi with users := [modelUser] }
      let mi2 := if modelUser.access ≠ "write" then { mi1 with machines := [] } else mi1
      .ok mi2

/-! ## Theorems for claims C1, C3 and C10 -/

/-- Environment in which the catalog lookups and all external calls of the
access operations succeed. -/
def accessEnv (m : MModel) (tu : DbUser) : AccessEnv :=
  { model := some m, targetUser := some tu, dialOk := true, remoteOk := true, updateOk := true }

/-! ## Group rename (JIMM.RenameGroup; spec-modelled) -/

/-- dbmodel.GroupEntry: the unique mutable name and the monotonically
increasing numeric id used in authorization tuples (spec §3: name
mutable, id immutable). -/
structure GroupEntry where
  id : Nat
  name : String
  deriving DecidableEq, Repr

/-- Modelled from the spec: `JIMM.RenameGroup` / `Database.UpdateGroup`
are not among the source files. Spec §4.3: "Group rename is name-only;
the numeric id is preserved, so no tuples need rewriting" — the catalog
row keeps its id and only the name column changes, and the tuple store is
untouched (tuples reference groups by their numeric id, as
TestResolveTupleObjectMapsGroups shows: the resolved group tag carries
the id, not the name). -/
def renameGroup (groups : List GroupEntry) (s : List Tuple)
    (oldName newName : String) : List GroupEntry × List Tuple :=
  (groups.map (fun g => if g.name = oldName then ⟨g.id, newName⟩ else g), s)

/-- Modelled from the spec: the OpenFGA check API is not part of the
repository. Transitive group membership: `memberOf s fuel obj gid` holds
when the object reaches `group:gid` through stored `member` tuples,
traversing nested `group:g#member` objects (nested groups occur in the
repository, e.g. the `group2#member → member → group1` tuple of
TestRemoveGroupRemovesTuples). A minimal membership derivation uses each
member tuple at most once, so fuel `s.length` decides the full transitive
closure. -/
def memberOf (s : List Tuple) : Nat → Tag → String → Bool
  | 0, _, _ => false
  | fuel + 1, obj, gid =>
    s.any (fun t => t.rel == "member" && t.target == ⟨"group", gid, ""⟩ &&
      (t.obj == obj ||
        (t.obj.kind == "group" && t.obj.rel == "member" && memberOf s fuel obj t.obj.id)))

/-- Modelled from the spec: the OpenFGA check API is not part of the
repository. Spec §4.3: `check(tuple) → allowed` is boolean reachability
from the object to the target via the relation, traversing `#member`
edges on groups transitively: either the direct tuple is stored, or some
group whose `#member` selector has the relation to the target contains
the object through a chain of member edges. -/
def checkRelation (s : List Tuple) (obj : Tag) (rel : String) (target : Tag) : Bool :=
  s.contains ⟨obj, rel, target⟩ ||
    s.any (fun t => t.rel == rel && t.target == target && t.obj.kind == "group" &&
      t.obj.rel == "member" && memberOf s s.length obj t.obj.id)

/-! ## AddController (access_test.go) and the secret store -/

/-- dbmodel.Controller as relevant to AddController: the name, the admin
credentials and the cloud fields filled in from the controller model
summary. -/
structure CtlRow where
  name : String
  adminUser : String
  adminPassword : String
  cloudName : String := ""
  cloudRegion : String := ""
  deriving DecidableEq, Repr

/-- Results of the external collaborators consulted by AddController. -/
structure AddControllerEnv where
  /-- openfga.IsAdministrator succeeds and reports the user an admin. -/
  isAdmin : Bool
  /-- whether `j.dial` succeeds. -/
  dialOk : Bool
  /-- whether ControllerModelSummary succeeds. -/
  modelSummaryOk : Bool
  /-- whether the summary cloud tag parses. -/
  cloudParseOk : Bool
  /-- the cloud of the controller model summary. -/
  summaryCloud : String
  /-- the region of the controller model summary. -/
  summaryRegion : String
  /-- whether api.Clouds succeeds. -/
  cloudsOk : Bool
  /-- whether a credential store is configured (j.CredentialStore != nil). -/
  storeConfigured : Bool
  /-- whether CredentialStore.PutControllerCredentials succeeds. -/
  putCredentialsOk : Bool
  /-- whether the cloud/region/user-access writes inside the transaction
  succeed. -/
  txCloudsOk : Bool
  /-- whether tx.AddController succeeds. -/
  addControllerOk : Bool

/-- The transaction body of AddController after the cloud import: blank
the admin credentials when they were stored in the secret store, then
insert the controller row; on any error the transaction rolls back,
leaving the catalog unchanged. The cloud and region rows written by
the cloud import only touch the cloud tables and are outside the
modelled state. -/
def addControllerTx (env : AddControllerEnv) (ctl : CtlRow) (credentialsStored : Bool)
    (secret : List (String × String × String)) (catalog : List CtlRow) :
    Except JimmError Unit × List (String × String × String) × List CtlRow :=
  if ¬env.txCloudsOk then (.error ⟨none, "failed to add cloud"⟩, secret, catalog)
  else
    let ctl2 := if credentialsStored then
        { ctl with adminUser := "", adminPassword := "" }
      else ctl
    if ¬env.addControllerOk then
      (.error ⟨some .alreadyExists, "controller already exists"⟩, secret, catalog)
    else (.ok (), secret, catalog ++ [ctl2])

/-- `JIMM.AddController` (access_test.go): admin check, dial, model
summary, cloud import, PutControllerCredentials when a secret store is
configured (aborting on failure), then the insert transaction. Returns
the result, the secret-store contents and the controller rows of the
catalog. -/
def addController (env : AddControllerEnv) (ctl : CtlRow)
    (secret : List (String × String × String)) (catalog : List CtlRow) :
    Except JimmError Unit × List (String × String × String) × List CtlRow :=
  if ¬env.isAdmin then (.error ⟨some .unauthorized, "unauthorized"⟩, secret, catalog)
  else if ¬env.dialOk then
    (.error ⟨none, "failed to dial the controller"⟩, secret, catalog)
  else if ¬env.modelSummaryOk then
    (.error ⟨none, "failed to get model summary"⟩, secret, catalog)
  else if ¬env.cloudParseOk then
    (.error ⟨none, "failed to parse the cloud tag"⟩, secret, catalog)
  else
    let ctl1 := { ctl with cloudName := env.summaryCloud, cloudRegion := env.summaryRegion }
    if ¬env.cloudsOk then
      (.error ⟨none, "failed to fetch controller clouds"⟩, secret, catalog)
    else if env.storeConfigured then
      if ¬env.putCredentialsOk then
        (.error ⟨none, "failed to store controller credentials"⟩, secret, catalog)
      else
        addControllerTx env ctl1 true
          (secret ++ [(ctl1.name, ctl1.adminUser, ctl1.adminPassword)]) catalog
    else addControllerTx env ctl1 false secret catalog

/-! ## Theorems settling the claims, with their supporting lemmas -/

theorem map_perm_finRange {n : Nat} (σ : Equiv.Perm (Fin n)) :
    List.Perm ((List.finRange n).map σ) (List.finRange n) := by
  apply List.perm_of_nodup_nodup_toFinset_eq
  · exact (List.nodup_finRange n).map σ.injective
  · exact List.nodup_finRange n
  · ext i
    simp only [List.mem_toFinset, List.mem_map, List.mem_finRange, true_and, iff_true]
    exact ⟨σ.symm i, σ.apply_symm_apply i⟩

/-- The shuffled list is a permutation of the original. -/
theorem permuteList_perm {α : Type _} (l : List α) (σ : Equiv.Perm (Fin l.length)) :
    List.Perm (permuteList l σ) l := by
  have h1 : permuteList l σ = ((List.finRange l.length).map σ).map l.get := by
    simp only [permuteList, List.map_map]
    rfl
  rw [h1]
  exact ((map_perm_finRange σ).map l.get).trans (by rw [List.finRange_map_get])

/-- Inserting an entry of the priority-p class puts it in front of the
class entries already present: inserting descends past exactly the
entries of strictly larger priority. -/
theorem filter_orderedInsert_of_class {p : Nat} (x : CloudRegionControllerPriority)
    (hx : x.priority = p) (l : List CloudRegionControllerPriority) :
    (List.orderedInsert priorityGE x l).filter (fun c => c.priority == p) =
      x :: l.filter (fun c => c.priority == p) := by
  induction l with
  | nil => simp [hx]
  | cons y ys ih =>
    by_cases h : priorityGE x y
    · simp only [List.orderedInsert, if_pos h]
      simp [hx]
    · have hy : y.priority ≠ p := by
        intro hyp
        exact h (by simp [priorityGE, hx, hyp])
      simp only [List.orderedInsert, if_neg h]
      simp only [List.filter_cons]
      have : (y.priority == p) = false := by simpa using hy
      simp [this, ih]

/-- Inserting an entry outside the priority-p class does not disturb the
class subsequence. -/
theorem filter_orderedInsert_of_nonclass {p : Nat} (x : CloudRegionControllerPriority)
    (hx : x.priority ≠ p) (l : List CloudRegionControllerPriority) :
    (List.orderedInsert priorityGE x l).filter (fun c => c.priority == p) =
      l.filter (fun c => c.priority == p) := by
  induction l with
  | nil => simp [hx]
  | cons y ys ih =>
    by_cases h : priorityGE x y
    · simp only [List.orderedInsert, if_pos h]
      simp [hx]
    · simp only [List.orderedInsert, if_neg h]
      simp only [List.filter_cons]
      by_cases hy : (y.priority == p) = true <;> simp [hy, ih]

/-- Stability of the sort: the subsequence of any equal-priority class is
unchanged by the stable sort. -/
theorem filter_insertionSort_priority (p : Nat) (l : List CloudRegionControllerPriority) :
    (List.insertionSort priorityGE l).filter (fun c => c.priority == p) =
      l.filter (fun c => c.priority == p) := by
  induction l with
  | nil => rfl
  | cons x xs ih =>
    by_cases hx : x.priority = p
    · rw [List.insertionSort, filter_orderedInsert_of_class x hx, ih]
      simp [hx]
    · rw [List.insertionSort, filter_orderedInsert_of_nonclass x hx, ih]
      have : (x.priority == p) = false := by simpa using hx
      simp [this]

/-- The head of the shuffled-and-sorted candidate list is a candidate of
maximal priority. -/
theorem shuffle_head_max (cs : List CloudRegionControllerPriority)
    (σ : Equiv.Perm (Fin cs.length)) (first : CloudRegionControllerPriority)
    (rest : List CloudRegionControllerPriority)
    (h : shuffleRegionControllers cs σ = first :: rest) :
    first ∈ cs ∧ ∀ e ∈ cs, e.priority ≤ first.priority := by
  have hperm : List.Perm (shuffleRegionControllers cs σ) cs :=
    (List.perm_insertionSort priorityGE (permuteList cs σ)).trans (permuteList_perm cs σ)
  have hsorted : (shuffleRegionControllers cs σ).Sorted priorityGE :=
    List.sorted_insertionSort priorityGE (permuteList cs σ)
  rw [h] at hperm hsorted
  constructor
  · exact hperm.mem_iff.mp (List.mem_cons_self first rest)
  · intro e he
    rcases List.mem_cons.mp (hperm.mem_iff.mpr he) with rfl | hrest
    · exact le_refl _
    · exact List.rel_of_sorted_cons hsorted e hrest

/-- C2 (counterexample): the claim that placement never selects a
controller whose priority entry for the chosen region is zero is false:
with a single candidate entry of priority zero, selectCloudRegion selects
that controller; no check that the priority is positive exists in the
code. -/
theorem placement_allows_zero_priority :
    ¬ (∀ (c : Cloud) (perm : (n : Nat) → Equiv.Perm (Fin n)) (rid : Nat) (ctl : Controller),
        selectCloudRegion c perm = .ok (rid, ctl) →
        ∃ e ∈ cloudCandidates c,
          e.cloudRegionID = rid ∧ e.controller = ctl ∧ 0 < e.priority) := by
  intro h
  obtain ⟨e, he, -, -, hpos⟩ :=
    h ⟨"dummy", [⟨1, "r", [⟨1, ⟨1, "c1"⟩, 0⟩]⟩]⟩ (fun _ => 1) 1 ⟨1, "c1"⟩ rfl
  simp only [cloudCandidates, List.map_cons, List.map_nil, List.flatten,
    List.mem_cons, List.not_mem_nil, or_false, List.append_nil] at he
  rw [he] at hpos
  exact absurd hpos (by decide)

/-- C2 (amended): the placement engine always selects a candidate entry:
the chosen controller always has a (cloud, region, priority) entry whose
CloudRegionID is the chosen region, and that entry has maximal priority
among the candidates. It never requires the priority to be positive: a
zero-priority controller is selected exactly when every candidate entry
has priority zero. This holds for the cloud-wide selection
(selectCloudRegion) and for the region-restricted selection
(WithCloudRegion). -/
theorem placement_selects_max_priority_entry :
    (∀ (c : Cloud) (perm : (n : Nat) → Equiv.Perm (Fin n)) (rid : Nat) (ctl : Controller),
      selectCloudRegion c perm = .ok (rid, ctl) →
      ∃ e ∈ cloudCandidates c, e.cloudRegionID = rid ∧ e.controller = ctl ∧
        ∀ e' ∈ cloudCandidates c, e'.priority ≤ e.priority)
    ∧ (∀ (c : Cloud) (region : String) (perm : (n : Nat) → Equiv.Perm (Fin n))
        (rid : Nat) (ctl : Controller) (r : CloudRegion),
        c.regions.find? (fun r => r.name == region) = some r →
        withCloudRegionSelect c region perm = .ok (rid, ctl) →
        ∃ e ∈ r.controllers, e.cloudRegionID = rid ∧ e.controller = ctl ∧
          ∀ e' ∈ r.controllers, e'.priority ≤ e.priority) := by
  constructor
  · intro c perm rid ctl hok
    rcases hs : shuffleRegionControllers (cloudCandidates c)
        (perm (cloudCandidates c).length) with _ | ⟨first, rest⟩
    · rw [selectCloudRegion] at hok
      simp only [hs] at hok
      exact absurd hok (by simp)
    · rw [selectCloudRegion] at hok
      simp only [hs] at hok
      obtain ⟨hmem, hmax⟩ := shuffle_head_max _ _ _ _ hs
      have : rid = first.cloudRegionID ∧ ctl = first.controller := by
        cases hok
        exact ⟨rfl, rfl⟩
      exact ⟨first, hmem, this.1.symm, this.2.symm, hmax⟩
  · intro c region perm rid ctl r hr hok
    rw [withCloudRegionSelect, hr] at hok
    rcases hs : shuffleRegionControllers r.controllers
        (perm r.controllers.length) with _ | ⟨first, rest⟩
    · simp only [hs] at hok
      exact absurd hok (by simp)
    · simp only [hs] at hok
      obtain ⟨hmem, hmax⟩ := shuffle_head_max _ _ _ _ hs
      by_cases h0 : first.cloudRegionID = 0
      · rw [if_pos h0] at hok
        exact absurd hok (by simp)
      · rw [if_neg h0] at hok
        have : rid = first.cloudRegionID ∧ ctl = first.controller := by
          cases hok
          exact ⟨rfl, rfl⟩
        exact ⟨first, hmem, this.1.symm, this.2.symm, hmax⟩

/-- C2 (witness): a concrete selection instantiating the amended theorem. -/
theorem placement_selects_max_priority_entry_witness :
    ∃ e ∈ cloudCandidates ⟨"dummy", [⟨1, "r", [⟨1, ⟨1, "c1"⟩, 5⟩]⟩]⟩,
      e.cloudRegionID = 1 ∧ e.controller = ⟨1, "c1"⟩ ∧
      ∀ e' ∈ cloudCandidates ⟨"dummy", [⟨1, "r", [⟨1, ⟨1, "c1"⟩, 5⟩]⟩]⟩,
        e'.priority ≤ e.priority :=
  placement_selects_max_priority_entry.1 ⟨"dummy", [⟨1, "r", [⟨1, ⟨1, "c1"⟩, 5⟩]⟩]⟩
    (fun _ => 1) 1 ⟨1, "c1"⟩ rfl

theorem classOrder_perm_classIndices (l : List CloudRegionControllerPriority) (p : Nat)
    (σ : Equiv.Perm (Fin l.length)) :
    List.Perm (classOrder l p σ) (classIndices l p) :=
  (map_perm_finRange σ).filter _

/-- Composing the shuffle outcome with a class-preserving permutation ρ
relabels the class order by ρ. -/
theorem classOrder_mul (l : List CloudRegionControllerPriority) (p : Nat)
    (ρ σ : Equiv.Perm (Fin l.length))
    (hρ : ∀ j, ((l.get (ρ j)).priority == p) = ((l.get j).priority == p)) :
    classOrder l p (ρ * σ) = (classOrder l p σ).map ρ := by
  unfold classOrder
  have h1 : (List.finRange l.length).map (ρ * σ) =
      ((List.finRange l.length).map σ).map ρ := by
    rw [List.map_map]
    rfl
  rw [h1, List.filter_map]
  congr 1
  exact List.filter_congr (fun x _ => hρ x)

theorem permOfLists_apply_of_not_mem {β : Type _} [DecidableEq β] (t₁ t₂ : List β)
    (ht : List.Perm t₁ t₂) (h1 : t₁.Nodup) {x : β} (hx : x ∉ t₁) :
    permOfLists t₁ t₂ ht h1 x = x :=
  dif_neg hx

theorem permOfLists_apply_mem {β : Type _} [DecidableEq β] (t₁ t₂ : List β)
    (ht : List.Perm t₁ t₂) (h1 : t₁.Nodup) {x : β} (hx : x ∈ t₁) :
    permOfLists t₁ t₂ ht h1 x ∈ t₂ := by
  show permOfListsFun t₁ t₂ ht.length_eq x ∈ t₂
  rw [permOfListsFun, dif_pos hx]
  exact List.get_mem t₂ _ _

theorem permOfLists_map {β : Type _} [DecidableEq β] (t₁ t₂ : List β)
    (ht : List.Perm t₁ t₂) (h1 : t₁.Nodup) :
    t₁.map (permOfLists t₁ t₂ ht h1) = t₂ := by
  apply List.ext_get (by simpa using ht.length_eq)
  intro k hk1 hk2
  have hget : (t₁.map (permOfLists t₁ t₂ ht h1)).get ⟨k, hk1⟩ =
      permOfListsFun t₁ t₂ ht.length_eq (t₁.get ⟨k, by simpa using hk1⟩) := by
    simp [permOfLists]
  rw [hget, permOfListsFun, dif_pos (List.get_mem t₁ _ _)]
  congr 1
  exact Fin.ext (List.get_indexOf h1 _)

/-- Uniformity of the class order: any two orderings of the priority-p
class arise from exactly the same number of shuffle outcomes. -/
theorem classOrder_fiber_card (l : List CloudRegionControllerPriority) (p : Nat)
    (t₁ t₂ : List (Fin l.length))
    (ht₁ : List.Perm t₁ (classIndices l p)) (ht₂ : List.Perm t₂ (classIndices l p)) :
    (Finset.univ.filter fun σ : Equiv.Perm (Fin l.length) => classOrder l p σ = t₁).card =
      (Finset.univ.filter fun σ : Equiv.Perm (Fin l.length) => classOrder l p σ = t₂).card := by
  have ht : List.Perm t₁ t₂ := ht₁.trans ht₂.symm
  have hnodI : (classIndices l p).Nodup := (List.nodup_finRange _).filter _
  have h1 : t₁.Nodup := (ht₁.nodup_iff).2 hnodI
  have hmem₁ : ∀ x : Fin l.length, x ∈ t₁ ↔ ((l.get x).priority == p) = true := by
    intro x
    rw [ht₁.mem_iff]
    simp [classIndices]
  have hmem₂ : ∀ x : Fin l.length, x ∈ t₂ ↔ ((l.get x).priority == p) = true := by
    intro x
    rw [ht₂.mem_iff]
    simp [classIndices]
  have hρP : ∀ j, ((l.get (permOfLists t₁ t₂ ht h1 j)).priority == p) =
      ((l.get j).priority == p) := by
    intro j
    by_cases hj : j ∈ t₁
    · rw [(hmem₂ _).1 (permOfLists_apply_mem t₁ t₂ ht h1 hj), (hmem₁ j).1 hj]
    · rw [permOfLists_apply_of_not_mem t₁ t₂ ht h1 hj]
  have hmapt : t₁.map (permOfLists t₁ t₂ ht h1) = t₂ := permOfLists_map t₁ t₂ ht h1
  apply Finset.card_equiv (Equiv.mulLeft (permOfLists t₁ t₂ ht h1))
  intro σ
  simp only [Finset.mem_filter, Finset.mem_univ, true_and, Equiv.coe_mulLeft]
  rw [classOrder_mul l p _ σ hρP]
  constructor
  · intro hh
    rw [hh]
    exact hmapt
  · intro hh
    apply List.map_injective_iff.2 (permOfLists t₁ t₂ ht h1).injective
    rw [hmapt]
    exact hh

/-- C4: for every non-empty candidate list and every shuffle outcome σ,
the ordering produced by shuffleRegionControllers is sorted descending by
priority; by stability, each equal-priority class appears in exactly the
order σ placed it (classOrder); and, σ being uniformly distributed, the
relative order of each equal-priority class is uniform: any two orderings
of the class are produced by the same number of outcomes σ. -/
theorem shuffle_sort_ordering (l : List CloudRegionControllerPriority) (hl : l ≠ []) :
    (∀ σ : Equiv.Perm (Fin l.length), (shuffleRegionControllers l σ).Sorted priorityGE)
    ∧ (∀ (σ : Equiv.Perm (Fin l.length)) (p : Nat),
        (shuffleRegionControllers l σ).filter (fun c => c.priority == p) =
          (classOrder l p σ).map l.get)
    ∧ (∀ (p : Nat) (t₁ t₂ : List (Fin l.length)),
        List.Perm t₁ (classIndices l p) → List.Perm t₂ (classIndices l p) →
        (Finset.univ.filter fun σ : Equiv.Perm (Fin l.length) => classOrder l p σ = t₁).card =
          (Finset.univ.filter fun σ : Equiv.Perm (Fin l.length) => classOrder l p σ = t₂).card) := by
  refine ⟨fun σ => List.sorted_insertionSort priorityGE _, fun σ p => ?_,
    fun p t₁ t₂ h₁ h₂ => classOrder_fiber_card l p t₁ t₂ h₁ h₂⟩
  rw [shuffleRegionControllers, filter_insertionSort_priority]
  have h1 : permuteList l σ = ((List.finRange l.length).map σ).map l.get := by
    simp only [permuteList, List.map_map]
    rfl
  rw [h1, List.filter_map]
  rfl

/-- C4 (witness): with two equal-priority candidates the output is sorted
and the two class orders are realized by equally many shuffle outcomes. -/
theorem shuffle_sort_ordering_witness :
    ((shuffleRegionControllers [⟨1, ⟨1, "c1"⟩, 5⟩, ⟨1, ⟨2, "c2"⟩, 5⟩]
        1).Sorted priorityGE)
    ∧ (Finset.univ.filter fun σ : Equiv.Perm
          (Fin ([⟨1, ⟨1, "c1"⟩, 5⟩, ⟨1, ⟨2, "c2"⟩, 5⟩] :
            List CloudRegionControllerPriority).length) =>
        classOrder [⟨1, ⟨1, "c1"⟩, 5⟩, ⟨1, ⟨2, "c2"⟩, 5⟩] 5 σ = [⟨0, by decide⟩, ⟨1, by decide⟩]).card =
      (Finset.univ.filter fun σ : Equiv.Perm
          (Fin ([⟨1, ⟨1, "c1"⟩, 5⟩, ⟨1, ⟨2, "c2"⟩, 5⟩] :
            List CloudRegionControllerPriority).length) =>
        classOrder [⟨1, ⟨1, "c1"⟩, 5⟩, ⟨1, ⟨2, "c2"⟩, 5⟩] 5 σ = [⟨1, by decide⟩, ⟨0, by decide⟩]).card :=
  ⟨(shuffle_sort_ordering [⟨1, ⟨1, "c1"⟩, 5⟩, ⟨1, ⟨2, "c2"⟩, 5⟩] (by decide)).1 1,
   (shuffle_sort_ordering [⟨1, ⟨1, "c1"⟩, 5⟩, ⟨1, ⟨2, "c2"⟩, 5⟩] (by decide)).2.2 5
     [⟨0, by decide⟩, ⟨1, by decide⟩] [⟨1, by decide⟩, ⟨0, by decide⟩]
     (by decide) (by decide)⟩

/-- Every tuple of a page returned by readTuples matches the pattern. -/
theorem mem_readTuples_matches {s : List Tuple} {p : TuplePattern} {pageSize token : Nat}
    {t : Tuple} (h : t ∈ (readTuples s p pageSize token).1) : tupleMatches p t = true := by
  rw [readTuples] at h
  exact List.of_mem_filter (List.mem_of_mem_drop (List.mem_of_mem_take h))

/-- Deleting a page of matching tuples does not change the non-matching
remainder of the store. -/
theorem filter_not_matches_of_page (p : TuplePattern) (s page : List Tuple)
    (hpage : ∀ t ∈ page, tupleMatches p t = true) :
    (s.filter (fun t => ¬ t ∈ page)).filter (fun t => ¬ tupleMatches p t = true) =
      s.filter (fun t => ¬ tupleMatches p t = true) := by
  rw [List.filter_filter]
  apply List.filter_congr
  intro t ht
  by_cases hm : tupleMatches p t = true
  · simp [hm]
  · have hp : t ∉ page := fun hx => hm (hpage t hx)
    simp [hm, hp]

/-- Deleting a page commutes with restricting to the matching tuples. -/
theorem filter_matches_of_page (p : TuplePattern) (s page : List Tuple) :
    (s.filter (fun t => ¬ t ∈ page)).filter (tupleMatches p) =
      (s.filter (tupleMatches p)).filter (fun t => ¬ t ∈ page) :=
  List.filter_comm _ _ s

/-- Correctness of the do-while pagination loop: with sufficient fuel it
finishes and deletes exactly the matching tuples. -/
theorem removeTuplesLoop_spec (p : TuplePattern) :
    ∀ (fuel token : Nat) (s : List Tuple),
      2 * (s.filter (tupleMatches p)).length + min token 1 + 1 ≤ fuel →
      removeTuplesLoop p fuel token s =
        some (s.filter (fun t => ¬ tupleMatches p t = true)) := by
  intro fuel
  induction fuel with
  | zero =>
    intro token s h
    omega
  | succ fuel ih =>
    intro token s hfuel
    rw [removeTuplesLoop]
    have hpage : ∀ t ∈ (readTuples s p 50 token).1, tupleMatches p t = true :=
      fun t ht => mem_readTuples_matches ht
    by_cases hstop : (readTuples s p 50 token).2 = token
    · rw [if_pos hstop]
      -- the loop stops only with token 0 and everything already read
      have htok : token = 0 := by
        rw [readTuples] at hstop
        simp only at hstop
        split at hstop
        · omega
        · omega
      subst htok
      have hlen : (s.filter (tupleMatches p)).length ≤ 50 := by
        rw [readTuples] at hstop
        simp only at hstop
        split at hstop
        · omega
        · omega
      -- the page is the whole matching set
      have hpageall : (readTuples s p 50 0).1 = s.filter (tupleMatches p) := by
        rw [readTuples]
        simp only [List.drop_zero]
        exact List.take_of_length_le hlen
      rw [hpageall]
      congr 1
      apply List.filter_congr
      intro t ht
      by_cases hm : tupleMatches p t = true
      · have : t ∈ s.filter (tupleMatches p) := List.mem_filter.2 ⟨ht, hm⟩
        simp [hm, this]
      · have : t ∉ s.filter (tupleMatches p) := fun hmem => hm (List.of_mem_filter hmem)
        simp [hm, this]
    · rw [if_neg hstop]
      rw [ih _ _ ?_]
      · exact congrArg some (filter_not_matches_of_page p s _ hpage)
      · -- fuel accounting
        by_cases hempty : (readTuples s p 50 token).1 = []
        · -- empty page: the store is unchanged and the next token is 0
          have hnext : (readTuples s p 50 token).2 = 0 := by
            rw [readTuples] at hempty ⊢
            simp only at hempty ⊢
            rcases List.take_eq_nil_iff.1 hempty with h50 | hdrop
            · omega
            · have := List.drop_eq_nil_iff.1 hdrop
              split
              · omega
              · rfl
          have htok : token ≠ 0 := fun h => hstop (by rw [hnext, h])
          have htokpos : 0 < token := Nat.pos_of_ne_zero htok
          have hsame : (s.filter (fun t => ¬ t ∈ (readTuples s p 50 token).1)).filter
              (tupleMatches p) = s.filter (tupleMatches p) := by
            rw [hempty]
            simp
          rw [hsame, hnext]
          omega
        · -- non-empty page: at least one matching tuple is deleted
          have hdec : ((s.filter (fun t => ¬ t ∈ (readTuples s p 50 token).1)).filter
              (tupleMatches p)).length < (s.filter (tupleMatches p)).length := by
            rw [filter_matches_of_page p s ((readTuples s p 50 token).1)]
            apply List.length_filter_lt_length_iff_exists.2
            obtain ⟨t, hts⟩ := List.exists_mem_of_ne_nil _ hempty
            refine ⟨t, ?_, by simp [hts]⟩
            rw [readTuples] at hts
            exact List.mem_of_mem_drop (List.mem_of_mem_take hts)
          omega

/-- removeTuples removes exactly the matching tuples. -/
theorem removeTuples_spec (s : List Tuple) (p : TuplePattern) :
    removeTuples s p = some (s.filter (fun t => ¬ tupleMatches p t = true)) := by
  apply removeTuplesLoop_spec
  omega

/-- On stores whose targets lie in the five kinds RemoveGroup iterates
over (WellFormedStore), RemoveGroup deletes, by paginated reads of page
size 50 repeated until no matching tuples remain, every tuple that
mentions the group as object or target: the run completes and the
resulting store contains no tuple referencing the group, and contains
only tuples of the original store. Cloud-targeted tuples lie outside
this hypothesis and survive (removeGroup_misses_cloud_tuples). -/
theorem removeGroup_removes_all (gid : String) (s : List Tuple) (hwf : WellFormedStore s) :
    ∃ s', removeGroup gid s = some s' ∧
      (∀ t ∈ s', ¬ mentionsGroup gid t) ∧ (∀ t ∈ s', t ∈ s) := by
  have hrun : removeGroup gid s = some
      ((((((s.filter (fun t => ¬ tupleMatches ⟨none, "member", ⟨"group", gid, ""⟩⟩ t = true)).filter
        (fun t => ¬ tupleMatches ⟨some ⟨"group", gid, "member"⟩, "", ⟨"user", "", ""⟩⟩ t = true)).filter
        (fun t => ¬ tupleMatches ⟨some ⟨"group", gid, "member"⟩, "", ⟨"model", "", ""⟩⟩ t = true)).filter
        (fun t => ¬ tupleMatches ⟨some ⟨"group", gid, "member"⟩, "", ⟨"controller", "", ""⟩⟩ t = true)).filter
        (fun t => ¬ tupleMatches ⟨some ⟨"group", gid, "member"⟩, "", ⟨"applicationoffer", "", ""⟩⟩ t = true)).filter
        (fun t => ¬ tupleMatches ⟨some ⟨"group", gid, "member"⟩, "", ⟨"group", "", ""⟩⟩ t = true)) := by
    rw [removeGroup]
    simp [removeTuples_spec, resourceTypes]
    congr 1
    funext a
    simp only [Bool.and_assoc]
  refine ⟨_, hrun, ?_, ?_⟩
  · intro t ht hmention
    simp only [List.mem_filter, decide_eq_true_eq] at ht
    obtain ⟨⟨⟨⟨⟨⟨hts, h0⟩, h1⟩, h2⟩, h3⟩, h4⟩, h5⟩ := ht
    obtain ⟨hkinds, htarg, hobj⟩ := hwf t hts
    rcases hmention with ⟨hk, hid⟩ | ⟨hk, hid⟩
    · -- the group is the object: t.obj = group:gid#member, and the
      -- per-kind pass for the kind of the target deleted the tuple
      have horel := hobj hk
      have hoeq : t.obj = ⟨"group", gid, "member"⟩ := by
        rcases hto : t.obj with ⟨ok, oi, orl⟩
        rw [hto] at hk hid horel
        simp only at hk hid horel
        rw [hk, hid, horel]
      simp only [resourceTypes, List.mem_cons, List.not_mem_nil, or_false] at hkinds
      rcases hkinds with hkind | hkind | hkind | hkind | hkind
      · exact h1 (by simp [tupleMatches, hoeq, hkind])
      · exact h2 (by simp [tupleMatches, hoeq, hkind])
      · exact h3 (by simp [tupleMatches, hoeq, hkind])
      · exact h4 (by simp [tupleMatches, hoeq, hkind])
      · exact h5 (by simp [tupleMatches, hoeq, hkind])
    · -- the group is the target: rel is member and the first pass
      -- deleted the tuple
      obtain ⟨hrel, htrel⟩ := htarg hk
      apply h0
      have hteq : t.target = ⟨"group", gid, ""⟩ := by
        rcases htt : t.target with ⟨tk, ti, trl⟩
        rw [htt] at hk hid htrel
        simp only at hk hid htrel
        rw [hk, hid, htrel]
      by_cases hgid : gid = "" <;> simp [tupleMatches, hteq, hrel, hgid]
  · intro t ht
    simp only [List.mem_filter] at ht
    exact ht.1.1.1.1.1.1

/-- C8 (counterexample): the claim that a revoked credential is never
auto-selected is false: selectCloudCredentials checks only the valid
flag, so a revoked credential whose valid flag is still set is selected. -/
theorem selectCloudCredentials_picks_revoked :
    ¬ (∀ (env : AddModelEnv) (b : Builder) (c : Credential),
        b.selectCloudCredentials env = .ok c → c.revoked = false) := by
  intro h
  have := h
    { users := [⟨1, "bob", "add-model"⟩], clouds := [⟨"dummy", []⟩],
      credentials := [⟨1, "cred", "dummy", "bob", some true, true⟩],
      perm := fun _ => 1, dialOk := true, updateCredentialOk := true,
      createModel := .error .other, grantJIMMOk := true, updateModelOk := true }
    { user := some ⟨1, "bob", "add-model"⟩, cloud := some ⟨"dummy", []⟩ }
    ⟨1, "cred", "dummy", "bob", some true, true⟩ rfl
  exact absurd this (by decide)

/-- C8 (amended): with no credential given, the builder auto-selects the
first credential of the caller for the resolved cloud whose valid flag is
set (the revoked flag is not consulted), and errors when the caller has
no credential with the valid flag set for that cloud. -/
theorem selectCloudCredentials_first_valid (env : AddModelEnv) (b : Builder)
    (user : DbUser) (cloud : Cloud) (hu : b.user = some user) (hc : b.cloud = some cloud) :
    (∀ c, b.selectCloudCredentials env = .ok c →
      c ∈ getUserCloudCredentials env user cloud.name ∧ c.valid = some true)
    ∧ ((∀ c ∈ getUserCloudCredentials env user cloud.name, c.valid ≠ some true) →
      b.selectCloudCredentials env = .error ⟨none, "valid cloud credentials not found"⟩) := by
  constructor
  · intro c hok
    rw [Builder.selectCloudCredentials, hu, hc] at hok
    dsimp only at hok
    rcases hfind : (getUserCloudCredentials env user cloud.name).find?
        (fun c => c.valid == some true) with _ | c0
    · rw [hfind] at hok
      cases hok
    · rw [hfind] at hok
      have hc0 : c0 = c := by
        cases hok
        rfl
      subst hc0
      refine ⟨List.mem_of_find?_eq_some hfind, ?_⟩
      have := List.find?_some hfind
      simpa using this
  · intro hnone
    rw [Builder.selectCloudCredentials, hu, hc]
    dsimp only
    have hfind : (getUserCloudCredentials env user cloud.name).find?
        (fun c => c.valid == some true) = none := by
      apply List.find?_eq_none.2
      intro c hcmem
      simpa using hnone c hcmem
    rw [hfind]

/-- C8 (witness): a concrete valid credential of the caller is selected. -/
theorem selectCloudCredentials_first_valid_witness :
    (⟨1, "cred", "dummy", "bob", some true, false⟩ : Credential) ∈
      getUserCloudCredentials
        { users := [⟨1, "bob", "add-model"⟩], clouds := [⟨"dummy", []⟩],
          credentials := [⟨1, "cred", "dummy", "bob", some true, false⟩],
          perm := fun _ => 1, dialOk := true, updateCredentialOk := true,
          createModel := .error .other, grantJIMMOk := true, updateModelOk := true }
        ⟨1, "bob", "add-model"⟩ "dummy" ∧
      (⟨1, "cred", "dummy", "bob", some true, false⟩ : Credential).valid = some true :=
  (selectCloudCredentials_first_valid
    { users := [⟨1, "bob", "add-model"⟩], clouds := [⟨"dummy", []⟩],
      credentials := [⟨1, "cred", "dummy", "bob", some true, false⟩],
      perm := fun _ => 1, dialOk := true, updateCredentialOk := true,
      createModel := .error .other, grantJIMMOk := true, updateModelOk := true }
    { user := some ⟨1, "bob", "add-model"⟩, cloud := some ⟨"dummy", []⟩ }
    ⟨1, "bob", "add-model"⟩ ⟨"dummy", []⟩ rfl rfl).1
    ⟨1, "cred", "dummy", "bob", some true, false⟩ rfl

/-- Witness for the five-kind cascade on the store of
TestRemoveGroupRemovesTuples: removing group 2 completes and leaves no
tuple mentioning it. -/
theorem removeGroup_removes_all_witness :
    ∃ s', removeGroup "2"
        [⟨⟨"user", "alice", ""⟩, "member", ⟨"group", "1", ""⟩⟩,
         ⟨⟨"user", "alice", ""⟩, "member", ⟨"group", "2", ""⟩⟩,
         ⟨⟨"group", "2", "member"⟩, "member", ⟨"group", "1", ""⟩⟩,
         ⟨⟨"group", "2", "member"⟩, "administrator", ⟨"controller", "c", ""⟩⟩,
         ⟨⟨"group", "2", "member"⟩, "writer", ⟨"model", "m", ""⟩⟩] = some s' ∧
      (∀ t ∈ s', ¬ mentionsGroup "2" t) ∧
      (∀ t ∈ s', t ∈
        [⟨⟨"user", "alice", ""⟩, "member", ⟨"group", "1", ""⟩⟩,
         ⟨⟨"user", "alice", ""⟩, "member", ⟨"group", "2", ""⟩⟩,
         ⟨⟨"group", "2", "member"⟩, "member", ⟨"group", "1", ""⟩⟩,
         ⟨⟨"group", "2", "member"⟩, "administrator", ⟨"controller", "c", ""⟩⟩,
         ⟨⟨"group", "2", "member"⟩, "writer", ⟨"model", "m", ""⟩⟩]) :=
  removeGroup_removes_all "2" _ (by
    intro t ht
    fin_cases ht <;> refine ⟨by decide, by decide, by decide⟩)

/-- C5: the resourceTypes loop of RemoveGroup omits the cloud kind, so a
tuple granting a group access to a cloud survives the deletion of that
group while still referencing it as object, and a subsequent read of the
cloud-targeted tuples of the group returns it — the claimed cascade
"across every resource kind", leaving "no tuple referencing the group",
fails on cloud-targeted tuples, which the repository writes (spec §3
lists the cloud: kind; AddController calls AddCloudController). -/
theorem removeGroup_misses_cloud_tuples :
    removeGroup "2" [⟨⟨"group", "2", "member"⟩, "administrator", ⟨"cloud", "aws", ""⟩⟩]
      = some [⟨⟨"group", "2", "member"⟩, "administrator", ⟨"cloud", "aws", ""⟩⟩] ∧
    mentionsGroup "2" ⟨⟨"group", "2", "member"⟩, "administrator", ⟨"cloud", "aws", ""⟩⟩ ∧
    (readTuples [⟨⟨"group", "2", "member"⟩, "administrator", ⟨"cloud", "aws", ""⟩⟩]
        ⟨some ⟨"group", "2", "member"⟩, "", ⟨"cloud", "", ""⟩⟩ 50 0).1
      = [⟨⟨"group", "2", "member"⟩, "administrator", ⟨"cloud", "aws", ""⟩⟩] :=
  ⟨by decide, Or.inl ⟨rfl, rfl⟩, by decide⟩

/-- C1 (counterexample): the claim states that RevokeModelAccess updates
the local catalog before the controller call. It is false: in a
successful revoke the trace places the controller call strictly before
the catalog write, exactly as in grant. -/
theorem revoke_not_local_first :
    ¬ (∀ (env : AccessEnv) (u : DbUser) (access : String) (m' : MModel) (tr : List AccessEvent),
        revokeModelAccess env u access = (.ok m', tr) →
        tr.indexOf .dbUpdateAccess < tr.indexOf .remoteRevoke) := by
  intro h
  have := h (accessEnv ⟨"muuid", [⟨1, "alice", "admin"⟩]⟩ ⟨1, "alice", ""⟩)
    ⟨2, "bob", "superuser"⟩ "admin"
    (updateUserModelAccess ⟨"muuid", [⟨1, "alice", "admin"⟩]⟩ 1 "alice" "write")
    [.dial, .remoteRevoke, .dbUpdateAccess] rfl
  exact absurd this (by decide)

/-- C1 (amended): in both GrantModelAccess and RevokeModelAccess the
controller call is made before the local catalog write: whenever the
catalog write occurs in the trace of external calls, the corresponding
remote controller call occurs strictly earlier. -/
theorem grant_revoke_remote_before_local (env : AccessEnv) (u : DbUser) (access : String) :
    (AccessEvent.dbUpdateAccess ∈ (grantModelAccess env u access).2 →
      AccessEvent.remoteGrant ∈ (grantModelAccess env u access).2 ∧
      (grantModelAccess env u access).2.indexOf .remoteGrant <
        (grantModelAccess env u access).2.indexOf .dbUpdateAccess)
    ∧ (AccessEvent.dbUpdateAccess ∈ (revokeModelAccess env u access).2 →
      AccessEvent.remoteRevoke ∈ (revokeModelAccess env u access).2 ∧
      (revokeModelAccess env u access).2.indexOf .remoteRevoke <
        (revokeModelAccess env u access).2.indexOf .dbUpdateAccess) := by
  unfold grantModelAccess revokeModelAccess
  constructor
  · rcases env.model with _ | m <;> simp
    split
    · simp
    · rcases env.targetUser with _ | tu <;> simp
      split
      · simp
      · split
        · simp
        · split <;>
            exact fun _ =>
              ⟨(by decide : AccessEvent.remoteGrant ∈
                  [AccessEvent.dial, AccessEvent.remoteGrant, AccessEvent.dbUpdateAccess]),
               (by decide : List.indexOf AccessEvent.remoteGrant
                    [AccessEvent.dial, AccessEvent.remoteGrant, AccessEvent.dbUpdateAccess] <
                  List.indexOf AccessEvent.dbUpdateAccess
                    [AccessEvent.dial, AccessEvent.remoteGrant, AccessEvent.dbUpdateAccess])⟩
  · rcases env.model with _ | m <;> simp
    split
    · simp
    · rcases env.targetUser with _ | tu <;> simp
      split
      · simp
      · split
        · simp
        · split <;>
            exact fun _ =>
              ⟨(by decide : AccessEvent.remoteRevoke ∈
                  [AccessEvent.dial, AccessEvent.remoteRevoke, AccessEvent.dbUpdateAccess]),
               (by decide : List.indexOf AccessEvent.remoteRevoke
                    [AccessEvent.dial, AccessEvent.remoteRevoke, AccessEvent.dbUpdateAccess] <
                  List.indexOf AccessEvent.dbUpdateAccess
                    [AccessEvent.dial, AccessEvent.remoteRevoke, AccessEvent.dbUpdateAccess])⟩

/-- C1 (witness): a concrete environment exercising the amended theorem. -/
theorem grant_revoke_remote_before_local_witness :
    AccessEvent.remoteGrant ∈
      (grantModelAccess (accessEnv ⟨"muuid", [⟨1, "alice", "admin"⟩]⟩ ⟨1, "alice", ""⟩)
        ⟨2, "bob", "superuser"⟩ "write").2 :=
  ((grant_revoke_remote_before_local
    (accessEnv ⟨"muuid", [⟨1, "alice", "admin"⟩]⟩ ⟨1, "alice", ""⟩)
    ⟨2, "bob", "superuser"⟩ "write").1 (by decide)).1

/-- C3: RevokeModelAccess downgrades the stored access of the target user
by exactly one level along admin → write → read → none when the level
revoked is the level currently held, and two successive such revokes of a
user holding admin leave read. The switch in the source maps the revoked
level to its successor in the chain; the local write stores that value. -/
theorem revoke_downgrade_one_level (m : MModel) (u tu : DbUser)
    (hsu : u.controllerAccess = "superuser") :
    (∀ cur, m.userAccess tu = cur → cur ≠ "" →
        ∃ m', (revokeModelAccess (accessEnv m tu) u cur).1 = .ok m' ∧
          m'.userAccess tu = revokeDowngrade cur)
    ∧ (revokeDowngrade "admin" = "write" ∧ revokeDowngrade "write" = "read" ∧
        revokeDowngrade "read" = "")
    ∧ (m.userAccess tu = "admin" →
        ∃ m1 m2, (revokeModelAccess (accessEnv m tu) u (m.userAccess tu)).1 = .ok m1 ∧
          (revokeModelAccess (accessEnv m1 tu) u (m1.userAccess tu)).1 = .ok m2 ∧
          m2.userAccess tu = "read") := by
  have key : ∀ (m : MModel) (cur : String), m.userAccess tu = cur → cur ≠ "" →
      ∃ m', (revokeModelAccess (accessEnv m tu) u cur).1 = .ok m' ∧
        m'.userAccess tu = revokeDowngrade cur := by
    intro m cur hcur hne
    refine ⟨updateUserModelAccess m tu.id tu.username (revokeDowngrade cur), ?_, ?_⟩
    · simp [revokeModelAccess, accessEnv, hsu]
    · -- the target user has a row in m.users, since m.userAccess tu = cur ≠ ""
      have hrow : m.users.any (fun a => a.userID == tu.id) = true := by
        rcases hfind : m.users.find? (fun a => a.userID == tu.id) with _ | a
        · rw [MModel.userAccess, hfind] at hcur
          exact absurd hcur.symm hne
        · have hpa := List.find?_some hfind
          exact List.any_eq_true.mpr ⟨a, List.mem_of_find?_eq_some hfind, hpa⟩
      rcases hfind : m.users.find? (fun a => a.userID == tu.id) with _ | a
      · rw [MModel.userAccess, hfind] at hcur; exact absurd hcur.symm hne
      · have hid := List.find?_some hfind
        have hpf : ((fun a : UserModelAccess => a.userID == tu.id) ∘
            (fun a : UserModelAccess => if a.userID == tu.id then
              { a with access := revokeDowngrade cur } else a)) =
            (fun a : UserModelAccess => a.userID == tu.id) := by
          funext x
          by_cases hx : (x.userID == tu.id) = true <;> simp [Function.comp, hx]
        have hfind2 : (m.users.map (fun a => if a.userID == tu.id then
            { a with access := revokeDowngrade cur } else a)).find?
              (fun a => a.userID == tu.id) =
            some { a with access := revokeDowngrade cur } := by
          rw [List.find?_map, hpf, hfind]
          simp only [Option.map_some', if_pos hid]
        rw [MModel.userAccess]
        simp only [updateUserModelAccess, if_pos hrow]
        rw [hfind2]
        rfl
  refine ⟨key m, ⟨rfl, rfl, rfl⟩, ?_⟩
  intro hadm
  obtain ⟨m1, hm1, hm1acc⟩ := key m "admin" hadm (by decide)
  obtain ⟨m2, hm2, hm2acc⟩ := key m1 "write" (by simpa [revokeDowngrade] using hm1acc)
    (by decide)
  exact ⟨m1, m2, by rw [hadm]; exact hm1, by rw [hm1acc.trans (by rfl)]; exact hm2, by
    simpa [revokeDowngrade] using hm2acc⟩

/-- C3 (witness): a user holding admin, revoked at the level held twice,
is left with read. -/
theorem revoke_downgrade_one_level_witness :
    ∃ m1 m2,
      (revokeModelAccess (accessEnv ⟨"muuid", [⟨1, "alice", "admin"⟩]⟩ ⟨1, "alice", ""⟩)
        ⟨2, "bob", "superuser"⟩
        ((⟨"muuid", [⟨1, "alice", "admin"⟩]⟩ : MModel).userAccess ⟨1, "alice", ""⟩)).1 = .ok m1 ∧
      (revokeModelAccess (accessEnv m1 ⟨1, "alice", ""⟩) ⟨2, "bob", "superuser"⟩
        (m1.userAccess ⟨1, "alice", ""⟩)).1 = .ok m2 ∧
      m2.userAccess ⟨1, "alice", ""⟩ = "read" :=
  (revoke_downgrade_one_level ⟨"muuid", [⟨1, "alice", "admin"⟩]⟩
    ⟨2, "bob", "superuser"⟩ ⟨1, "alice", ""⟩ rfl).2.2 (by decide)

/-- C10: ModelInfo filters by requester access: for a requester who is not
a controller superuser and not a model admin, the user list of the reply
contains only the entry of the requester; the machine list is removed
unless the access is write (so any level below write loses it); and a
requester with no access at all gets an error with code Unauthorized. -/
theorem modelInfo_filters (mi : JujuModelInfo) (u : DbUser)
    (hsu : u.controllerAccess ≠ "superuser") :
    ((modelInfoUserEntry mi u).access = "" →
      modelInfo (some mi) u = .error ⟨some .unauthorized, ""⟩)
    ∧ ((modelInfoUserEntry mi u).access ≠ "" → (modelInfoUserEntry mi u).access ≠ "admin" →
      ∃ mi', modelInfo (some mi) u = .ok mi' ∧
        mi'.users = [modelInfoUserEntry mi u] ∧
        ((modelInfoUserEntry mi u).access ≠ "write" → mi'.machines = []) ∧
        ((modelInfoUserEntry mi u).access = "write" → mi'.machines = mi.machines)) := by
  constructor
  · intro hempty
    simp [modelInfo, hsu, hempty]
  · intro hne hnadm
    by_cases hw : (modelInfoUserEntry mi u).access = "write"
    · refine ⟨{ mi with users := [modelInfoUserEntry mi u] }, ?_, rfl,
        fun h => absurd hw h, fun _ => rfl⟩
      simp [modelInfo, hsu, hne, hnadm, hw]
    · refine ⟨{ mi with users := [modelInfoUserEntry mi u], machines := [] }, ?_, rfl,
        fun _ => rfl, fun h => absurd h hw⟩
      simp [modelInfo, hsu, hne, hnadm, hw]

/-- C10 (witness): a concrete reader with read access sees only itself
and no machines. -/
theorem modelInfo_filters_witness :
    ∃ mi', modelInfo (some ⟨"m", "u1", [⟨"alice", "", "read"⟩, ⟨"bob", "", "admin"⟩],
        ["0", "1"]⟩) ⟨1, "alice", "add-model"⟩ = .ok mi' ∧
      mi'.users = [modelInfoUserEntry ⟨"m", "u1",
        [⟨"alice", "", "read"⟩, ⟨"bob", "", "admin"⟩], ["0", "1"]⟩ ⟨1, "alice", "add-model"⟩] ∧
      ((modelInfoUserEntry ⟨"m", "u1", [⟨"alice", "", "read"⟩, ⟨"bob", "", "admin"⟩],
        ["0", "1"]⟩ ⟨1, "alice", "add-model"⟩).access ≠ "write" → mi'.machines = []) ∧
      ((modelInfoUserEntry ⟨"m", "u1", [⟨"alice", "", "read"⟩, ⟨"bob", "", "admin"⟩],
        ["0", "1"]⟩ ⟨1, "alice", "add-model"⟩).access = "write" → mi'.machines = ["0", "1"]) :=
  (modelInfo_filters ⟨"m", "u1", [⟨"alice", "", "read"⟩, ⟨"bob", "", "admin"⟩], ["0", "1"]⟩
    ⟨1, "alice", "add-model"⟩ (by decide)).2 (by decide) (by decide)

theorem withUser_fields (b : Builder) (u : DbUser) :
    (b.withUser u).owner = b.owner ∧ (b.withUser u).name = b.name ∧
      (b.withUser u).user = some u := by
  unfold Builder.withUser
  dsimp only
  split
  · split <;> exact ⟨rfl, rfl, rfl⟩
  · exact ⟨rfl, rfl, rfl⟩

theorem withOwner_fields (env : AddModelEnv) (b : Builder) (o : String)
    (hb : b.err = none) :
    (b.withOwner env o).owner = some (getUser env o) ∧ (b.withOwner env o).name = b.name ∧
      (b.withOwner env o).user = b.user := by
  unfold Builder.withOwner
  split
  · rename_i h
    rw [hb] at h
    simp at h
  · dsimp only
    rcases hu : b.user with _ | u
    · dsimp only
      exact ⟨rfl, rfl, by first | rfl | rw [hu]⟩
    · dsimp only
      split <;> exact ⟨rfl, rfl, by first | rfl | rw [hu]⟩

theorem withCloud_fields (env : AddModelEnv) (b : Builder) (c : String) :
    (b.withCloud env c).owner = b.owner ∧ (b.withCloud env c).name = b.name ∧
      (b.withCloud env c).user = b.user := by
  unfold Builder.withCloud
  split
  · exact ⟨rfl, rfl, rfl⟩
  · split <;> exact ⟨rfl, rfl, rfl⟩

theorem withCloudRegion_fields (env : AddModelEnv) (b : Builder) (r : String) :
    (b.withCloudRegion env r).owner = b.owner ∧ (b.withCloudRegion env r).name = b.name ∧
      (b.withCloudRegion env r).user = b.user := by
  unfold Builder.withCloudRegion
  split
  · exact ⟨rfl, rfl, rfl⟩
  · split
    · exact ⟨rfl, rfl, rfl⟩
    · split <;> exact ⟨rfl, rfl, rfl⟩

theorem withCloudCredential_fields (env : AddModelEnv) (b : Builder) (cl ow nm : String) :
    (b.withCloudCredential env cl ow nm).owner = b.owner ∧
      (b.withCloudCredential env cl ow nm).name = b.name ∧
      (b.withCloudCredential env cl ow nm).user = b.user := by
  unfold Builder.withCloudCredential
  split
  · exact ⟨rfl, rfl, rfl⟩
  · split <;> exact ⟨rfl, rfl, rfl⟩

theorem selectRegion_ok_fields (env : AddModelEnv) (b b1 : Builder)
    (h : b.selectRegion env = .ok b1) :
    b1.name = b.name ∧ b1.owner = b.owner ∧ b1.err = b.err := by
  unfold Builder.selectRegion at h
  split at h
  · cases h
    exact ⟨rfl, rfl, rfl⟩
  · split at h
    · cases h
    · split at h
      · cases h
      · cases h
        exact ⟨rfl, rfl, rfl⟩

/-- Facts shared by every error arm of CreateDatabaseModel: the builder
carries an error, the catalog is untouched and the trace is empty. -/
theorem cdm_err_case (bb : Builder) (db : DbState) (E : JimmError) (hE : bb.err = some E) :
    ((bb, db, ([] : List ModelEvent)).2.2 = [] ∨
      (bb, db, ([] : List ModelEvent)).2.2 = [ModelEvent.dbAddModel])
    ∧ ((bb, db, ([] : List ModelEvent)).1.err.isSome → (bb, db, ([] : List ModelEvent)).2.1 = db)
    ∧ ((bb, db, ([] : List ModelEvent)).1.err = none →
        ∃ stored : ModelRow,
          (bb, db, ([] : List ModelEvent)).1.model = some stored ∧
          stored.id = db.nextID ∧
          (bb, db, ([] : List ModelEvent)).2.1 = ⟨db.models ++ [stored], db.nextID + 1⟩ ∧
          (bb, db, ([] : List ModelEvent)).2.2 = [ModelEvent.dbAddModel])
    ∧ (¬ (bb, db, ([] : List ModelEvent)).1.err = none ∧
        (∀ e, (bb, db, ([] : List ModelEvent)).1.err = some e →
          ModelEvent.dbAddModel ∈ (bb, db, ([] : List ModelEvent)).2.2 →
          e.code = some ErrCode.alreadyExists)) := by
  have h1 : (bb, db, ([] : List ModelEvent)).1.err = bb.err := rfl
  refine ⟨Or.inl rfl, fun _ => rfl, fun hn => ?_, fun hn => ?_, fun e he hmem => ?_⟩
  · rw [h1, hE] at hn
    cases hn
  · rw [h1, hE] at hn
    cases hn
  · cases hmem

/-- Facts about CreateDatabaseModel needed by the AddModel theorem: its
trace is at most the single insert call; on error the catalog is
untouched; on success exactly the freshly numbered skeletal row was
appended; and a pre-existing row with the same owner and name forces an
error, an AlreadyExists error when the insert was reached. -/
theorem cdm_facts (env : AddModelEnv) (b : Builder) (db : DbState) :
    ((b.createDatabaseModel env db).2.2 = [] ∨
      (b.createDatabaseModel env db).2.2 = [ModelEvent.dbAddModel])
    ∧ ((b.createDatabaseModel env db).1.err.isSome →
        (b.createDatabaseModel env db).2.1 = db)
    ∧ ((b.createDatabaseModel env db).1.err = none →
        ∃ stored : ModelRow,
          (b.createDatabaseModel env db).1.model = some stored ∧
          stored.id = db.nextID ∧
          (b.createDatabaseModel env db).2.1 = ⟨db.models ++ [stored], db.nextID + 1⟩ ∧
          (b.createDatabaseModel env db).2.2 = [ModelEvent.dbAddModel])
    ∧ (∀ owner : DbUser, b.owner = some owner →
        (∃ r ∈ db.models, r.ownerUsername = owner.username ∧ r.name = b.name) →
        ¬ (b.createDatabaseModel env db).1.err = none ∧
        (∀ e, (b.createDatabaseModel env db).1.err = some e →
          ModelEvent.dbAddModel ∈ (b.createDatabaseModel env db).2.2 →
          e.code = some ErrCode.alreadyExists)) := by
  unfold Builder.createDatabaseModel
  split
  · -- b.err.isSome
    rename_i herr
    obtain ⟨E, hEe⟩ := Option.isSome_iff_exists.1 herr
    obtain ⟨c1, c2, c3, c4⟩ := cdm_err_case b db E hEe
    exact ⟨c1, c2, c3, fun owner _ _ => c4⟩
  · rename_i herr
    split
    · refine ⟨(cdm_err_case _ db _ rfl).1, (cdm_err_case _ db _ rfl).2.1,
          (cdm_err_case _ db _ rfl).2.2.1, fun owner _ _ => (cdm_err_case _ db _ rfl).2.2.2⟩
    · split
      · refine ⟨(cdm_err_case _ db _ rfl).1, (cdm_err_case _ db _ rfl).2.1,
            (cdm_err_case _ db _ rfl).2.2.1, fun owner _ _ => (cdm_err_case _ db _ rfl).2.2.2⟩
      · rename_i owner0 howner0
        split
        · refine ⟨(cdm_err_case _ db _ rfl).1, (cdm_err_case _ db _ rfl).2.1,
              (cdm_err_case _ db _ rfl).2.2.1, fun owner _ _ => (cdm_err_case _ db _ rfl).2.2.2⟩
        · rename_i b1 hsel
          split
          · refine ⟨(cdm_err_case _ db _ rfl).1, (cdm_err_case _ db _ rfl).2.1,
                (cdm_err_case _ db _ rfl).2.2.1, fun owner _ _ => (cdm_err_case _ db _ rfl).2.2.2⟩
          · rename_i ctl hctl
            split
            · refine ⟨(cdm_err_case _ db _ rfl).1, (cdm_err_case _ db _ rfl).2.1,
                  (cdm_err_case _ db _ rfl).2.2.1, fun owner _ _ => (cdm_err_case _ db _ rfl).2.2.2⟩
            · rename_i cred hcred
              dsimp only
              -- name and owner are preserved by the region selection
              have hb1 : b1.name = b.name ∧ b1.owner = b.owner ∧ b1.err = b.err := by
                split at hsel
                · exact selectRegion_ok_fields env b b1 hsel
                · cases hsel
                  exact ⟨rfl, rfl, rfl⟩
              split
              · -- duplicate (owner, name) row: AlreadyExists
                rename_i hdup
                refine ⟨Or.inr rfl, fun _ => rfl, fun hn => ?_,
                  fun owner hown _ => ⟨fun hn => ?_, fun e he _ => ?_⟩⟩
                · simp at hn
                · simp at hn
                · cases he
                  rfl
              · -- insert succeeds
                rename_i hnodup
                refine ⟨Or.inr rfl, fun hs => ?_, fun _ => ?_,
                  fun owner hown hdup => ?_⟩
                · dsimp only at hs
                  rw [hb1.2.2] at hs
                  exact absurd hs herr
                · exact ⟨_, rfl, rfl, rfl, rfl⟩
                · exfalso
                  obtain ⟨r, hr, hro, hrn⟩ := hdup
                  apply hnodup
                  apply List.any_eq_true.2
                  refine ⟨r, hr, ?_⟩
                  have hoo : owner0 = owner := by
                    rw [hown] at howner0
                    cases howner0
                    rfl
                  simp [hro, hrn, hoo, hb1.1]

/-- CreateControllerModel never modifies the stored model row reference. -/
theorem ccm_model (env : AddModelEnv) (b : Builder) :
    (b.createControllerModel env).1.model = b.model := by
  unfold Builder.createControllerModel
  split
  · rfl
  · split
    · rfl
    · split
      · rfl
      · dsimp only
        split
        · rfl
        · split
          · rfl
          · split <;> first | rfl | (split <;> rfl)

/-- UpdateDatabaseModel on failure: the catalog and the stored model row
reference are unchanged. -/
theorem udm_on_err (env : AddModelEnv) (b : Builder) (db : DbState) :
    (b.updateDatabaseModel env db).1.err.isSome →
      (b.updateDatabaseModel env db).2.1 = db ∧
      (b.updateDatabaseModel env db).1.model = b.model := by
  unfold Builder.updateDatabaseModel
  split
  · exact fun _ => ⟨rfl, rfl⟩
  · rename_i herr
    split
    · dsimp only
      split
      · intro hs
        dsimp only at hs
        exact absurd hs herr
      · exact fun _ => ⟨rfl, rfl⟩
    · exact fun _ => ⟨rfl, rfl⟩

/-- Cleanup with a recorded error deletes the stored row. -/
theorem cleanup_deletes (b : Builder) (db : DbState) (e : JimmError) (m : ModelRow)
    (he : b.err = some e) (hm : b.model = some m) :
    b.cleanup db = (⟨db.models.filter (fun r => r.id ≠ m.id), db.nextID⟩,
      [ModelEvent.dbDeleteModel]) := by
  unfold Builder.cleanup
  rw [he, hm]

/-- Deleting the freshly appended row restores the catalog, ids being
fresh. -/
theorem filter_fresh_append (models : List ModelRow) (stored : ModelRow)
    (hfresh : ∀ r ∈ models, r.id < stored.id) :
    (models ++ [stored]).filter (fun r => r.id ≠ stored.id) = models := by
  rw [List.filter_append]
  have h1 : [stored].filter (fun r => r.id ≠ stored.id) = [] := by
    simp
  have h2 : models.filter (fun r => r.id ≠ stored.id) = models := by
    apply List.filter_eq_self.2
    intro r hr
    simpa using Nat.ne_of_lt (hfresh r hr)
  rw [h1, h2, List.append_nil]

theorem withCloud_owner (env : AddModelEnv) (b : Builder) (c : String) :
    (b.withCloud env c).owner = b.owner := (withCloud_fields env b c).1

theorem withCloud_name (env : AddModelEnv) (b : Builder) (c : String) :
    (b.withCloud env c).name = b.name := (withCloud_fields env b c).2.1

theorem withCloudRegion_owner (env : AddModelEnv) (b : Builder) (r : String) :
    (b.withCloudRegion env r).owner = b.owner := (withCloudRegion_fields env b r).1

theorem withCloudRegion_name (env : AddModelEnv) (b : Builder) (r : String) :
    (b.withCloudRegion env r).name = b.name := (withCloudRegion_fields env b r).2.1

theorem withCloudCredential_owner (env : AddModelEnv) (b : Builder) (cl ow nm : String) :
    (b.withCloudCredential env cl ow nm).owner = b.owner :=
  (withCloudCredential_fields env b cl ow nm).1

theorem withCloudCredential_name (env : AddModelEnv) (b : Builder) (cl ow nm : String) :
    (b.withCloudCredential env cl ow nm).name = b.name :=
  (withCloudCredential_fields env b cl ow nm).2.1

/-- The builder produced by the AddModel stage chain records the looked-up
owner and the requested model name. -/
theorem addModelBuilder_fields (env : AddModelEnv) (u : DbUser) (args : ModelCreateArgs) :
    (addModelBuilder env u args).owner = some (getUser env args.owner) ∧
      (addModelBuilder env u args).name = args.name := by
  obtain ⟨nm, ow, cl, cr, cc⟩ := args
  unfold addModelBuilder
  dsimp only
  have h1 := withOwner_fields env ((({} : Builder).withName nm).withUser u) ow rfl
  have hob1 : (((({} : Builder).withName nm).withUser u).withOwner env ow).owner
      = some (getUser env ow) := h1.1
  have hnb1 : (((({} : Builder).withName nm).withUser u).withOwner env ow).name = nm := h1.2.1
  rcases cl with _ | c <;> rcases cc with _ | ⟨t1, t2, t3⟩ <;>
    by_cases hcr : cr = "" <;>
      simp only [hcr, ne_eq, not_true_eq_false, not_false_eq_true, if_true, if_false,
        ite_true, ite_false, withCloud_owner, withCloud_name, withCloudRegion_owner,
        withCloudRegion_name, withCloudCredential_owner, withCloudCredential_name] <;>
      exact ⟨hob1, hnb1⟩

/-- C7: AddModel persists the skeletal model row locally before issuing
the remote create-model call: whenever the remote call appears in the
trace, the local insert appears strictly earlier. A pre-existing catalog
row with the requested owner and name makes the operation fail locally:
no remote call is issued and, when the insert itself was reached, the
reported error is AlreadyExists. On every error the deferred cleanup
leaves the catalog rows unchanged. -/
theorem addModel_local_first_and_rollback (env : AddModelEnv) (u : DbUser)
    (args : ModelCreateArgs) (db : DbState)
    (hfresh : ∀ r ∈ db.models, r.id < db.nextID) :
    (ModelEvent.remoteCreateModel ∈ (addModel env u args db).2.2 →
      ModelEvent.dbAddModel ∈ (addModel env u args db).2.2 ∧
      List.indexOf ModelEvent.dbAddModel (addModel env u args db).2.2 <
        List.indexOf ModelEvent.remoteCreateModel (addModel env u args db).2.2)
    ∧ ((∃ r ∈ db.models, r.ownerUsername = (getUser env args.owner).username ∧
          r.name = args.name) →
        (∃ e, (addModel env u args db).1 = .error e) ∧
        ModelEvent.remoteCreateModel ∉ (addModel env u args db).2.2 ∧
        (ModelEvent.dbAddModel ∈ (addModel env u args db).2.2 →
          ∀ e, (addModel env u args db).1 = .error e →
            e.code = some ErrCode.alreadyExists))
    ∧ (∀ e, (addModel env u args db).1 = .error e →
        (addModel env u args db).2.1.models = db.models) := by
  have hfields := addModelBuilder_fields env u args
  have hcdm := cdm_facts env (addModelBuilder env u args) db
  unfold addModel
  dsimp only
  rcases hb4 : (addModelBuilder env u args).err with _ | E4
  case some =>
    dsimp only
    refine ⟨fun h => absurd h (by simp), fun _ => ⟨⟨E4, rfl⟩, by simp, fun h => absurd h (by simp)⟩,
      fun e _ => rfl⟩
  case none =>
    dsimp only
    rcases hr5 : ((addModelBuilder env u args).createDatabaseModel env db).1.err with _ | E5
    case some =>
      dsimp only
      have hnr : ModelEvent.remoteCreateModel ∉
          ((addModelBuilder env u args).createDatabaseModel env db).2.2 := by
        rcases hcdm.1 with h | h <;> rw [h] <;> simp
      have hdbeq : ((addModelBuilder env u args).createDatabaseModel env db).2.1 = db :=
        hcdm.2.1 (by rw [hr5]; rfl)
      refine ⟨fun h => absurd h hnr, fun hdup => ⟨⟨E5, rfl⟩, hnr, fun hmem e he => ?_⟩,
        fun e _ => by rw [hdbeq]⟩
      obtain ⟨r, hr, hro, hrn⟩ := hdup
      have hED := (hcdm.2.2.2 _ hfields.1 ⟨r, hr, hro, by rw [hfields.2]; exact hrn⟩).2
      injection he with h
      exact h ▸ hED E5 hr5 hmem
    case none =>
      dsimp only
      obtain ⟨stored, hm5, hid, hdb5, htr5⟩ := hcdm.2.2.1 hr5
      have hnodup : ¬ ∃ r ∈ db.models,
          r.ownerUsername = (getUser env args.owner).username ∧ r.name = args.name := by
        intro hdup
        obtain ⟨r, hr, hro, hrn⟩ := hdup
        exact (hcdm.2.2.2 _ hfields.1 ⟨r, hr, hro, by rw [hfields.2]; exact hrn⟩).1 hr5
      have hmod6 : (((addModelBuilder env u args).createDatabaseModel
          env db).1.createControllerModel env).1.model = some stored := by
        rw [ccm_model]
        exact hm5
      rcases hr6 : (((addModelBuilder env u args).createDatabaseModel
          env db).1.createControllerModel env).1.err with _ | E6
      case some =>
        dsimp only
        have hclean := cleanup_deletes
          (((addModelBuilder env u args).createDatabaseModel env db).1.createControllerModel
            env).1
          ((addModelBuilder env u args).createDatabaseModel env db).2.1 E6 stored hr6 hmod6
        have hcat : ((((addModelBuilder env u args).createDatabaseModel
            env db).1.createControllerModel env).1.cleanup
            ((addModelBuilder env u args).createDatabaseModel env db).2.1).1.models
            = db.models := by
          rw [hclean]
          dsimp only
          rw [hdb5]
          dsimp only
          exact filter_fresh_append db.models stored (fun r hrm => by
            rw [hid]; exact hfresh r hrm)
        refine ⟨fun _ => ?_, fun hdup => absurd hdup hnodup, fun e _ => ?_⟩
        · rw [htr5]
          simp only [List.singleton_append, List.cons_append]
          refine ⟨List.mem_cons_self _ _, ?_⟩
          rw [List.indexOf_cons_self, List.indexOf_cons_ne _ (by decide)]
          exact Nat.succ_pos _
        · exact hcat
      case none =>
        dsimp only
        rcases hr8 : ((((addModelBuilder env u args).createDatabaseModel
            env db).1.createControllerModel env).1.updateDatabaseModel env
            ((addModelBuilder env u args).createDatabaseModel env db).2.1).1.err with _ | E8
        case some =>
          dsimp only
          obtain ⟨hdb8, hmod8⟩ := udm_on_err env
            (((addModelBuilder env u args).createDatabaseModel env db).1.createControllerModel
              env).1
            ((addModelBuilder env u args).createDatabaseModel env db).2.1 (by rw [hr8]; rfl)
          have hclean := cleanup_deletes
            ((((addModelBuilder env u args).createDatabaseModel
              env db).1.createControllerModel env).1.updateDatabaseModel env
              ((addModelBuilder env u args).createDatabaseModel env db).2.1).1
            ((((addModelBuilder env u args).createDatabaseModel
              env db).1.createControllerModel env).1.updateDatabaseModel env
              ((addModelBuilder env u args).createDatabaseModel env db).2.1).2.1
            E8 stored hr8 (hmod8.trans hmod6)
          have hcat : (((((addModelBuilder env u args).createDatabaseModel
              env db).1.createControllerModel env).1.updateDatabaseModel env
              ((addModelBuilder env u args).createDatabaseModel env db).2.1).1.cleanup
              ((((addModelBuilder env u args).createDatabaseModel
                env db).1.createControllerModel env).1.updateDatabaseModel env
                ((addModelBuilder env u args).createDatabaseModel env db).2.1).2.1).1.models
              = db.models := by
            rw [hclean]
            dsimp only
            rw [hdb8, hdb5]
            dsimp only
            exact filter_fresh_append db.models stored (fun r hrm => by
              rw [hid]; exact hfresh r hrm)
          refine ⟨fun _ => ?_, fun hdup => absurd hdup hnodup, fun e _ => ?_⟩
          · rw [htr5]
            simp only [List.singleton_append, List.cons_append]
            refine ⟨List.mem_cons_self _ _, ?_⟩
            rw [List.indexOf_cons_self, List.indexOf_cons_ne _ (by decide)]
            exact Nat.succ_pos _
          · exact hcat
        case none =>
          dsimp only
          refine ⟨fun _ => ?_, fun hdup => absurd hdup hnodup,
            fun e he => Except.noConfusion he⟩
          rw [htr5]
          simp only [List.singleton_append, List.cons_append]
          refine ⟨List.mem_cons_self _ _, ?_⟩
          rw [List.indexOf_cons_self, List.indexOf_cons_ne _ (by decide)]
          exact Nat.succ_pos _

/-- Witness for the AddModel theorem on a run that reaches the remote
create call and fails there: the trace shows the local insert strictly
before the remote call and the cleanup delete after it, the result is the
BadRequest error and the catalog rows are restored; the freshness
hypothesis is discharged on a non-empty catalog. -/
theorem addModel_local_first_and_rollback_witness :
    (∀ r ∈ (⟨[⟨1, "existing", "bob", 1, 1, 1, none, ""⟩], 2⟩ : DbState).models, r.id < (⟨[⟨1, "existing", "bob", 1, 1, 1, none, ""⟩], 2⟩ : DbState).nextID) ∧
    (addModel
      ⟨[⟨1, "alice", "add-model"⟩],
        [⟨"aws", [⟨7, "us-east-1", [⟨7, ⟨3, "ctl1"⟩, 1⟩]⟩]⟩],
        [⟨5, "cred1", "aws", "alice", some true, false⟩],
        fun n => Equiv.refl (Fin n), true, true, .error .badRequest, true, true⟩
      ⟨1, "alice", "add-model"⟩ ⟨"m", "alice", some "aws", "", some ("aws", "alice", "cred1")⟩
      ⟨[⟨1, "existing", "bob", 1, 1, 1, none, ""⟩], 2⟩).2.2 =
      [ModelEvent.dbAddModel, ModelEvent.dial, ModelEvent.remoteUpdateCredential,
       ModelEvent.remoteCreateModel, ModelEvent.dbDeleteModel] ∧
    (addModel
      ⟨[⟨1, "alice", "add-model"⟩],
        [⟨"aws", [⟨7, "us-east-1", [⟨7, ⟨3, "ctl1"⟩, 1⟩]⟩]⟩],
        [⟨5, "cred1", "aws", "alice", some true, false⟩],
        fun n => Equiv.refl (Fin n), true, true, .error .badRequest, true, true⟩
      ⟨1, "alice", "add-model"⟩ ⟨"m", "alice", some "aws", "", some ("aws", "alice", "cred1")⟩
      ⟨[⟨1, "existing", "bob", 1, 1, 1, none, ""⟩], 2⟩).1 =
      Except.error ⟨some ErrCode.badRequest, ""⟩ ∧
    (addModel
      ⟨[⟨1, "alice", "add-model"⟩],
        [⟨"aws", [⟨7, "us-east-1", [⟨7, ⟨3, "ctl1"⟩, 1⟩]⟩]⟩],
        [⟨5, "cred1", "aws", "alice", some true, false⟩],
        fun n => Equiv.refl (Fin n), true, true, .error .badRequest, true, true⟩
      ⟨1, "alice", "add-model"⟩ ⟨"m", "alice", some "aws", "", some ("aws", "alice", "cred1")⟩
      ⟨[⟨1, "existing", "bob", 1, 1, 1, none, ""⟩], 2⟩).2.1.models =
      (⟨[⟨1, "existing", "bob", 1, 1, 1, none, ""⟩], 2⟩ : DbState).models ∧
    ((ModelEvent.remoteCreateModel ∈
        (addModel
      ⟨[⟨1, "alice", "add-model"⟩],
        [⟨"aws", [⟨7, "us-east-1", [⟨7, ⟨3, "ctl1"⟩, 1⟩]⟩]⟩],
        [⟨5, "cred1", "aws", "alice", some true, false⟩],
        fun n => Equiv.refl (Fin n), true, true, .error .badRequest, true, true⟩
      ⟨1, "alice", "add-model"⟩ ⟨"m", "alice", some "aws", "", some ("aws", "alice", "cred1")⟩
      ⟨[⟨1, "existing", "bob", 1, 1, 1, none, ""⟩], 2⟩).2.2 →
      ModelEvent.dbAddModel ∈
        (addModel
      ⟨[⟨1, "alice", "add-model"⟩],
        [⟨"aws", [⟨7, "us-east-1", [⟨7, ⟨3, "ctl1"⟩, 1⟩]⟩]⟩],
        [⟨5, "cred1", "aws", "alice", some true, false⟩],
        fun n => Equiv.refl (Fin n), true, true, .error .badRequest, true, true⟩
      ⟨1, "alice", "add-model"⟩ ⟨"m", "alice", some "aws", "", some ("aws", "alice", "cred1")⟩
      ⟨[⟨1, "existing", "bob", 1, 1, 1, none, ""⟩], 2⟩).2.2 ∧
      List.indexOf ModelEvent.dbAddModel
          (addModel
      ⟨[⟨1, "alice", "add-model"⟩],
        [⟨"aws", [⟨7, "us-east-1", [⟨7, ⟨3, "ctl1"⟩, 1⟩]⟩]⟩],
        [⟨5, "cred1", "aws", "alice", some true, false⟩],
        fun n => Equiv.refl (Fin n), true, true, .error .badRequest, true, true⟩
      ⟨1, "alice", "add-model"⟩ ⟨"m", "alice", some "aws", "", some ("aws", "alice", "cred1")⟩
      ⟨[⟨1, "existing", "bob", 1, 1, 1, none, ""⟩], 2⟩).2.2 <
        List.indexOf ModelEvent.remoteCreateModel
          (addModel
      ⟨[⟨1, "alice", "add-model"⟩],
        [⟨"aws", [⟨7, "us-east-1", [⟨7, ⟨3, "ctl1"⟩, 1⟩]⟩]⟩],
        [⟨5, "cred1", "aws", "alice", some true, false⟩],
        fun n => Equiv.refl (Fin n), true, true, .error .badRequest, true, true⟩
      ⟨1, "alice", "add-model"⟩ ⟨"m", "alice", some "aws", "", some ("aws", "alice", "cred1")⟩
      ⟨[⟨1, "existing", "bob", 1, 1, 1, none, ""⟩], 2⟩).2.2)
    ∧ ((∃ r ∈ (⟨[⟨1, "existing", "bob", 1, 1, 1, none, ""⟩], 2⟩ : DbState).models,
          r.ownerUsername = (getUser
            ⟨[⟨1, "alice", "add-model"⟩],
        [⟨"aws", [⟨7, "us-east-1", [⟨7, ⟨3, "ctl1"⟩, 1⟩]⟩]⟩],
        [⟨5, "cred1", "aws", "alice", some true, false⟩],
        fun n => Equiv.refl (Fin n), true, true, .error .badRequest, true, true⟩ "alice").username ∧
          r.name = "m") →
        (∃ e, (addModel
      ⟨[⟨1, "alice", "add-model"⟩],
        [⟨"aws", [⟨7, "us-east-1", [⟨7, ⟨3, "ctl1"⟩, 1⟩]⟩]⟩],
        [⟨5, "cred1", "aws", "alice", some true, false⟩],
        fun n => Equiv.refl (Fin n), true, true, .error .badRequest, true, true⟩
      ⟨1, "alice", "add-model"⟩ ⟨"m", "alice", some "aws", "", some ("aws", "alice", "cred1")⟩
      ⟨[⟨1, "existing", "bob", 1, 1, 1, none, ""⟩], 2⟩).1 = .error e) ∧
        ModelEvent.remoteCreateModel ∉
          (addModel
      ⟨[⟨1, "alice", "add-model"⟩],
        [⟨"aws", [⟨7, "us-east-1", [⟨7, ⟨3, "ctl1"⟩, 1⟩]⟩]⟩],
        [⟨5, "cred1", "aws", "alice", some true, false⟩],
        fun n => Equiv.refl (Fin n), true, true, .error .badRequest, true, true⟩
      ⟨1, "alice", "add-model"⟩ ⟨"m", "alice", some "aws", "", some ("aws", "alice", "cred1")⟩
      ⟨[⟨1, "existing", "bob", 1, 1, 1, none, ""⟩], 2⟩).2.2 ∧
        (ModelEvent.dbAddModel ∈
            (addModel
      ⟨[⟨1, "alice", "add-model"⟩],
        [⟨"aws", [⟨7, "us-east-1", [⟨7, ⟨3, "ctl1"⟩, 1⟩]⟩]⟩],
        [⟨5, "cred1", "aws", "alice", some true, false⟩],
        fun n => Equiv.refl (Fin n), true, true, .error .badRequest, true, true⟩
      ⟨1, "alice", "add-model"⟩ ⟨"m", "alice", some "aws", "", some ("aws", "alice", "cred1")⟩
      ⟨[⟨1, "existing", "bob", 1, 1, 1, none, ""⟩], 2⟩).2.2 →
          ∀ e, (addModel
      ⟨[⟨1, "alice", "add-model"⟩],
        [⟨"aws", [⟨7, "us-east-1", [⟨7, ⟨3, "ctl1"⟩, 1⟩]⟩]⟩],
        [⟨5, "cred1", "aws", "alice", some true, false⟩],
        fun n => Equiv.refl (Fin n), true, true, .error .badRequest, true, true⟩
      ⟨1, "alice", "add-model"⟩ ⟨"m", "alice", some "aws", "", some ("aws", "alice", "cred1")⟩
      ⟨[⟨1, "existing", "bob", 1, 1, 1, none, ""⟩], 2⟩).1 = .error e →
            e.code = some ErrCode.alreadyExists))
    ∧ (∀ e, (addModel
      ⟨[⟨1, "alice", "add-model"⟩],
        [⟨"aws", [⟨7, "us-east-1", [⟨7, ⟨3, "ctl1"⟩, 1⟩]⟩]⟩],
        [⟨5, "cred1", "aws", "alice", some true, false⟩],
        fun n => Equiv.refl (Fin n), true, true, .error .badRequest, true, true⟩
      ⟨1, "alice", "add-model"⟩ ⟨"m", "alice", some "aws", "", some ("aws", "alice", "cred1")⟩
      ⟨[⟨1, "existing", "bob", 1, 1, 1, none, ""⟩], 2⟩).1 = .error e →
        (addModel
      ⟨[⟨1, "alice", "add-model"⟩],
        [⟨"aws", [⟨7, "us-east-1", [⟨7, ⟨3, "ctl1"⟩, 1⟩]⟩]⟩],
        [⟨5, "cred1", "aws", "alice", some true, false⟩],
        fun n => Equiv.refl (Fin n), true, true, .error .badRequest, true, true⟩
      ⟨1, "alice", "add-model"⟩ ⟨"m", "alice", some "aws", "", some ("aws", "alice", "cred1")⟩
      ⟨[⟨1, "existing", "bob", 1, 1, 1, none, ""⟩], 2⟩).2.1.models =
          (⟨[⟨1, "existing", "bob", 1, 1, 1, none, ""⟩], 2⟩ : DbState).models)) :=
  ⟨by decide, by decide, rfl, by decide,
   addModel_local_first_and_rollback
     ⟨[⟨1, "alice", "add-model"⟩],
        [⟨"aws", [⟨7, "us-east-1", [⟨7, ⟨3, "ctl1"⟩, 1⟩]⟩]⟩],
        [⟨5, "cred1", "aws", "alice", some true, false⟩],
        fun n => Equiv.refl (Fin n), true, true, .error .badRequest, true, true⟩
     ⟨1, "alice", "add-model"⟩ ⟨"m", "alice", some "aws", "", some ("aws", "alice", "cred1")⟩
     ⟨[⟨1, "existing", "bob", 1, 1, 1, none, ""⟩], 2⟩ (by decide)⟩

/-- C6: renaming a group rewrites only the name column of the catalog:
the numeric ids of the group rows are unchanged in place, rows not
bearing the old name are untouched, rows bearing it keep their id under
the new name, the authorization tuples are not rewritten at all, and
consequently every (user, resource, relation) check that succeeded before
the rename succeeds after it. -/
theorem renameGroup_preserves (groups : List GroupEntry) (s : List Tuple)
    (oldName newName : String) :
    (renameGroup groups s oldName newName).2 = s ∧
    (renameGroup groups s oldName newName).1.map GroupEntry.id = groups.map GroupEntry.id ∧
    (∀ g ∈ groups, g.name ≠ oldName → g ∈ (renameGroup groups s oldName newName).1) ∧
    (∀ g ∈ groups, g.name = oldName →
        (⟨g.id, newName⟩ : GroupEntry) ∈ (renameGroup groups s oldName newName).1) ∧
    (∀ obj rel target,
        checkRelation (renameGroup groups s oldName newName).2 obj rel target =
          checkRelation s obj rel target) := by
  dsimp only [renameGroup]
  refine ⟨rfl, ?_, ?_, ?_, fun obj rel target => rfl⟩
  · rw [List.map_map]
    apply List.map_congr_left
    intro g hg
    dsimp only [Function.comp]
    split <;> rfl
  · intro g hg hne
    exact List.mem_map.2 ⟨g, hg, by rw [if_neg hne]⟩
  · intro g hg he
    exact List.mem_map.2 ⟨g, hg, by rw [if_pos he]⟩

theorem renameGroup_preserves_witness :
    checkRelation
        [⟨⟨"user", "alice", ""⟩, "member", ⟨"group", "2", ""⟩⟩,
         ⟨⟨"group", "2", "member"⟩, "member", ⟨"group", "1", ""⟩⟩,
         ⟨⟨"group", "1", "member"⟩, "writer", ⟨"model", "m", ""⟩⟩]
        ⟨"user", "alice", ""⟩ "writer" ⟨"model", "m", ""⟩ = true ∧
    ((renameGroup [⟨1, "g"⟩, ⟨2, "h"⟩]
        [⟨⟨"user", "alice", ""⟩, "member", ⟨"group", "2", ""⟩⟩,
         ⟨⟨"group", "2", "member"⟩, "member", ⟨"group", "1", ""⟩⟩,
         ⟨⟨"group", "1", "member"⟩, "writer", ⟨"model", "m", ""⟩⟩] "g" "g2").2 =
      [⟨⟨"user", "alice", ""⟩, "member", ⟨"group", "2", ""⟩⟩,
       ⟨⟨"group", "2", "member"⟩, "member", ⟨"group", "1", ""⟩⟩,
       ⟨⟨"group", "1", "member"⟩, "writer", ⟨"model", "m", ""⟩⟩] ∧
    (renameGroup [⟨1, "g"⟩, ⟨2, "h"⟩]
        [⟨⟨"user", "alice", ""⟩, "member", ⟨"group", "2", ""⟩⟩,
         ⟨⟨"group", "2", "member"⟩, "member", ⟨"group", "1", ""⟩⟩,
         ⟨⟨"group", "1", "member"⟩, "writer", ⟨"model", "m", ""⟩⟩] "g" "g2").1.map
        GroupEntry.id =
      ([⟨1, "g"⟩, ⟨2, "h"⟩] : List GroupEntry).map GroupEntry.id ∧
    (∀ g ∈ ([⟨1, "g"⟩, ⟨2, "h"⟩] : List GroupEntry), g.name ≠ "g" →
      g ∈ (renameGroup [⟨1, "g"⟩, ⟨2, "h"⟩]
          [⟨⟨"user", "alice", ""⟩, "member", ⟨"group", "2", ""⟩⟩,
           ⟨⟨"group", "2", "member"⟩, "member", ⟨"group", "1", ""⟩⟩,
           ⟨⟨"group", "1", "member"⟩, "writer", ⟨"model", "m", ""⟩⟩] "g" "g2").1) ∧
    (∀ g ∈ ([⟨1, "g"⟩, ⟨2, "h"⟩] : List GroupEntry), g.name = "g" →
      (⟨g.id, "g2"⟩ : GroupEntry) ∈ (renameGroup [⟨1, "g"⟩, ⟨2, "h"⟩]
          [⟨⟨"user", "alice", ""⟩, "member", ⟨"group", "2", ""⟩⟩,
           ⟨⟨"group", "2", "member"⟩, "member", ⟨"group", "1", ""⟩⟩,
           ⟨⟨"group", "1", "member"⟩, "writer", ⟨"model", "m", ""⟩⟩] "g" "g2").1) ∧
    (∀ obj rel target,
      checkRelation (renameGroup [⟨1, "g"⟩, ⟨2, "h"⟩]
          [⟨⟨"user", "alice", ""⟩, "member", ⟨"group", "2", ""⟩⟩,
           ⟨⟨"group", "2", "member"⟩, "member", ⟨"group", "1", ""⟩⟩,
           ⟨⟨"group", "1", "member"⟩, "writer", ⟨"model", "m", ""⟩⟩] "g" "g2").2 obj rel
          target =
        checkRelation
          [⟨⟨"user", "alice", ""⟩, "member", ⟨"group", "2", ""⟩⟩,
           ⟨⟨"group", "2", "member"⟩, "member", ⟨"group", "1", ""⟩⟩,
           ⟨⟨"group", "1", "member"⟩, "writer", ⟨"model", "m", ""⟩⟩] obj rel target)) :=
  ⟨by decide,
   renameGroup_preserves [⟨1, "g"⟩, ⟨2, "h"⟩]
     [⟨⟨"user", "alice", ""⟩, "member", ⟨"group", "2", ""⟩⟩,
      ⟨⟨"group", "2", "member"⟩, "member", ⟨"group", "1", ""⟩⟩,
      ⟨⟨"group", "1", "member"⟩, "writer", ⟨"model", "m", ""⟩⟩] "g" "g2"⟩

/-- C9: with a secret store configured, AddController stores the admin
credentials in the secret store and blanks them in the catalog: every
controller row the operation adds to the catalog carries empty admin
credentials, and on success the secret store holds the new (name, admin
user, admin password) record while the inserted catalog row has empty
admin user and password. -/
theorem addController_secret_store (env : AddControllerEnv) (ctl : CtlRow)
    (secret : List (String × String × String)) (catalog : List CtlRow)
    (hconf : env.storeConfigured = true) :
    (∀ r ∈ (addController env ctl secret catalog).2.2,
        r ∈ catalog ∨ (r.adminUser = "" ∧ r.adminPassword = "")) ∧
    ((addController env ctl secret catalog).1 = .ok () →
      (addController env ctl secret catalog).2.1 =
          secret ++ [(ctl.name, ctl.adminUser, ctl.adminPassword)] ∧
      (addController env ctl secret catalog).2.2 =
          catalog ++ [{ ctl with
                        adminUser := ""
                        adminPassword := ""
                        cloudName := env.summaryCloud
                        cloudRegion := env.summaryRegion }]) := by
  have htx : ∀ (ctl1 : CtlRow) (sec : List (String × String × String)),
      (∀ r ∈ (addControllerTx env ctl1 true sec catalog).2.2,
          r ∈ catalog ∨ (r.adminUser = "" ∧ r.adminPassword = "")) ∧
      ((addControllerTx env ctl1 true sec catalog).1 = .ok () →
        (addControllerTx env ctl1 true sec catalog).2.1 = sec ∧
        (addControllerTx env ctl1 true sec catalog).2.2 =
          catalog ++ [{ ctl1 with
                        adminUser := ""
                        adminPassword := "" }]) := by
    intro ctl1 sec
    unfold addControllerTx
    split
    · exact ⟨fun r hr => Or.inl hr, fun h => Except.noConfusion h⟩
    · dsimp only
      split
      · exact ⟨fun r hr => Or.inl hr, fun h => Except.noConfusion h⟩
      · refine ⟨fun r hr => ?_, fun _ => ⟨rfl, rfl⟩⟩
        rcases List.mem_append.1 hr with h | h
        · exact Or.inl h
        · rw [List.mem_singleton] at h
          subst h
          exact Or.inr ⟨rfl, rfl⟩
  unfold addController
  split
  · exact ⟨fun r hr => Or.inl hr, fun h => Except.noConfusion h⟩
  · split
    · exact ⟨fun r hr => Or.inl hr, fun h => Except.noConfusion h⟩
    · split
      · exact ⟨fun r hr => Or.inl hr, fun h => Except.noConfusion h⟩
      · split
        · exact ⟨fun r hr => Or.inl hr, fun h => Except.noConfusion h⟩
        · dsimp only
          split
          · exact ⟨fun r hr => Or.inl hr, fun h => Except.noConfusion h⟩
          · split
            · exact ⟨fun r hr => Or.inl hr, fun h => Except.noConfusion h⟩
            · refine ⟨(htx _ _).1, fun hok => ?_⟩
              obtain ⟨h1, h2⟩ := (htx _ _).2 hok
              exact ⟨h1, h2⟩

theorem addController_secret_store_witness :
    (⟨true, true, true, true, "aws", "us-east-1", true, true, true, true,
        true⟩ : AddControllerEnv).storeConfigured = true ∧
    ((∀ r ∈ (addController
          ⟨true, true, true, true, "aws", "us-east-1", true, true, true, true, true⟩
          ⟨"c1", "admin", "hunter2", "", ""⟩ [] []).2.2,
        r ∈ ([] : List CtlRow) ∨ (r.adminUser = "" ∧ r.adminPassword = "")) ∧
    ((addController
          ⟨true, true, true, true, "aws", "us-east-1", true, true, true, true, true⟩
          ⟨"c1", "admin", "hunter2", "", ""⟩ [] []).1 = .ok () →
      (addController
          ⟨true, true, true, true, "aws", "us-east-1", true, true, true, true, true⟩
          ⟨"c1", "admin", "hunter2", "", ""⟩ [] []).2.1 =
          [] ++ [("c1", "admin", "hunter2")] ∧
      (addController
          ⟨true, true, true, true, "aws", "us-east-1", true, true, true, true, true⟩
          ⟨"c1", "admin", "hunter2", "", ""⟩ [] []).2.2 =
          [] ++ [⟨"c1", "", "", "aws", "us-east-1"⟩])) :=
  ⟨rfl,
   addController_secret_store
     ⟨true, true, true, true, "aws", "us-east-1", true, true, true, true, true⟩
     ⟨"c1", "admin", "hunter2", "", ""⟩ [] [] rfl⟩

end Jimm
